import Mathlib

/-!
Verification of the anime recommendation system core against its
natural-language specification.

The development shallowly embeds the Python source:
* `src/data/data_provider.py`        (`AnimeDataProvider`)
* `src/models/collaborative_filtering.py` (`UserBasedCollaborativeFiltering`)
* `src/models/content_based_filtering.py` (`ContentBasedFiltering`)
* `src/models/hybrid_recommender.py` (`HybridRecommender`)
* `src/services/recommendation_service.py` (`RecommendationService`)

Modelling conventions:
* pandas DataFrames become lists of records in file order;
* Python dicts become association lists in insertion order, with
  insert-or-update helpers mirroring `d[k] = v` / `d[k] += v`;
* float arithmetic is idealized as exact arithmetic: data values are `ℚ`,
  similarity values (which involve square roots) are `ℝ`;
* `numpy.argsort` is modelled as a stable ascending sort of the index list
  (exact for the small arrays used in concrete counterexamples, where numpy
  falls back to insertion sort);
* `sorted(..., reverse=True)` / `list.sort(reverse=True)` become a stable
  descending insertion sort;
* exceptions become `Except String`.
-/

namespace AnimeRec

/-- One row of the (renamed) anime table: columns `anime_id`, `name`, `genre`,
`type`, `episodes`, `rating` as read by the engines via `.get` with defaults. -/
structure Anime where
  anime_id : Int
  name : String
  genre : String
  type : String
  episodes : Int
  rating : ℚ
  deriving Repr, DecidableEq, Inhabited

/-- One row of the rating table: columns `user_id`, `anime_id`, `rating`. -/
structure Rating where
  user_id : Int
  anime_id : Int
  rating : ℚ
  deriving Repr, DecidableEq, Inhabited

/-- The data provider's two tables, in file order. -/
structure ProviderData where
  anime : List Anime
  ratings : List Rating
  deriving Repr

/-- A recommendation record as produced by the engines: the anime's display
fields plus `similarity_score` and `recommendation_type`.  (The facade's own
popular records omit the `similarity_score` key; every consumer reads it via
`.get('similarity_score', 0)`, so it is modelled as the value 0.) -/
structure RecRecord where
  anime_id : Int
  name : String
  genre : String
  type : String
  episodes : Int
  rating : ℚ
  similarity_score : ℝ
  recommendation_type : String

instance : Inhabited RecRecord := ⟨⟨0, "", "", "", 0, 0, 0, ""⟩⟩

/-- `AnimeDataProvider.get_anime_info`: first anime row with the given id. -/
def getAnimeInfo (D : ProviderData) (aid : Int) : Option Anime :=
  D.anime.find? (fun a => a.anime_id = aid)

/-- `AnimeDataProvider.get_user_ratings`: the rating rows of one user,
in file order. -/
def userRatingRows (D : ProviderData) (u : Int) : List Rating :=
  D.ratings.filter (fun x => x.user_id = u)

/-- Number of rating rows for a given anime id
(`rating_data.groupby('anime_id').size()` evaluated at that id). -/
def countA (D : ProviderData) (aid : Int) : ℕ :=
  (D.ratings.filter (fun x => x.anime_id = aid)).length

/-- `AnimeDataProvider.get_popular_anime`: anime rows whose id occurs in the
rating table with at least `minR` rows.  The `isin` filter keeps the anime
table's own order; no sort is applied.  (Membership in the rating table is
required because the pandas group-by only produces groups for ids that occur
there, which matters only for `minR = 0`.) -/
def getPopularAnime (D : ProviderData) (minR : ℕ) : List Anime :=
  D.anime.filter (fun a =>
    a.anime_id ∈ D.ratings.map (fun x => x.anime_id) ∧ minR ≤ countA D a.anime_id)

/-- The engines' `_get_popular_recommendations` body applied to a threshold:
take the head of the popular table and wrap each row as a record with
`similarity_score = 0.0` and type `'popular'`. -/
def popularRecs (D : ProviderData) (minR : ℕ) (n : ℕ) : List RecRecord :=
  ((getPopularAnime D minR).take n).map (fun a =>
    { anime_id := a.anime_id, name := a.name, genre := a.genre, type := a.type,
      episodes := a.episodes, rating := a.rating,
      similarity_score := (0 : ℝ), recommendation_type := "popular" })

/-! ### Python dict and sort helpers -/

/-- Python `if k not in d: d[k] = 0` followed by `d[k] += v` on a dict modelled
as an association list in insertion order. -/
def dictAdd (d : List (Int × ℝ)) (k : Int) (v : ℝ) : List (Int × ℝ) :=
  if d.any (fun p => p.1 = k) then
    d.map (fun p => if p.1 = k then (p.1, p.2 + v) else p)
  else d ++ [(k, v)]

/-- Stable descending sort by a real-valued key, as performed by Python's
`sorted(..., key=..., reverse=True)` and `list.sort(key=..., reverse=True)`. -/
noncomputable def sortByDesc {α : Type} (key : α → ℝ) (l : List α) : List α :=
  @List.insertionSort α (fun a b => key b ≤ key a)
    (fun _ _ => Classical.propDecidable _) l

/-- `numpy.argsort` on a vector of similarity values: the index list sorted by
value ascending, ties by index ascending (stable; numpy uses insertion sort on
the small arrays appearing in the concrete inputs below). -/
noncomputable def argsortAsc (xs : List ℝ) : List ℕ :=
  @List.insertionSort ℕ
    (fun i j => xs.getD i 0 < xs.getD j 0 ∨ (xs.getD i 0 = xs.getD j 0 ∧ i ≤ j))
    (fun _ _ => Classical.propDecidable _) (List.range xs.length)

/-! ### Cosine similarity (`sklearn.metrics.pairwise.cosine_similarity`) -/

/-- Dot product of two rational vectors. -/
def dotQ (x y : List ℚ) : ℚ := (List.zipWith (· * ·) x y).sum

/-- Cosine similarity of two rows, idealized over `ℝ`.  sklearn normalizes
each row, leaving zero-norm rows at zero, so any pair involving a zero row
(zero self-dot) has similarity 0 — including such a row with itself. -/
noncomputable def cosSim (x y : List ℚ) : ℝ :=
  if dotQ x x = 0 ∨ dotQ y y = 0 then 0
  else (dotQ x y : ℝ) / (Real.sqrt (dotQ x x) * Real.sqrt (dotQ y y))

/-- `cosine_similarity(M)`: the full pairwise similarity matrix of a list of
rows. -/
noncomputable def simMatrixQ (rows : List (List ℚ)) : List (List ℝ) :=
  rows.map (fun x => rows.map (fun y => cosSim x y))

/-! ### Collaborative engine (`UserBasedCollaborativeFiltering`) -/

/-- Distinct ids in ascending order: the index of the pandas
`groupby(...).size()` series. -/
def sortedDistinct (l : List Int) : List Int :=
  List.insertionSort (fun a b => a ≤ b) l.dedup

/-- Number of rating rows of one user. -/
def countU (D : ProviderData) (u : Int) : ℕ :=
  (D.ratings.filter (fun x => x.user_id = u)).length

/-- `Series.nlargest(n)` over a series indexed by ascending ids: sort the ids
by value descending, ties by id ascending (pandas `keep='first'`), take `n`. -/
def nlargestIds (count : Int → ℕ) (ids : List Int) (n : ℕ) : List Int :=
  (List.insertionSort
    (fun a b => count b < count a ∨ (count a = count b ∧ a ≤ b)) ids).take n

/-- `popular_anime_ids` of `_create_rating_matrix`: the `max_anime` most-rated
anime ids (also the column order of `anime_mapping`). -/
def popularAnimeIds (D : ProviderData) (ma : ℕ) : List Int :=
  nlargestIds (countA D) (sortedDistinct (D.ratings.map (fun x => x.anime_id))) ma

/-- `active_user_ids` of `_create_rating_matrix`: the `max_users` most-active
user ids (also the row order of `user_mapping`). -/
def activeUserIds (D : ProviderData) (mu : ℕ) : List Int :=
  nlargestIds (countU D) (sortedDistinct (D.ratings.map (fun x => x.user_id))) mu

/-- One cell of the sparse rating matrix: `csr_matrix` sums duplicate
`(row, col)` entries of the filtered rating rows. -/
def matrixEntry (D : ProviderData) (mu ma : ℕ) (u aid : Int) : ℚ :=
  ((D.ratings.filter (fun x =>
      x.anime_id ∈ popularAnimeIds D ma ∧ x.user_id ∈ activeUserIds D mu)).filter
    (fun x => x.user_id = u ∧ x.anime_id = aid)).map (fun x => x.rating) |>.sum

/-- A user's dense rating-matrix row (`self.rating_matrix[idx].toarray()`),
ordered by the anime-mapping columns. -/
def userRow (D : ProviderData) (mu ma : ℕ) (u : Int) : List ℚ :=
  (popularAnimeIds D ma).map (fun aid => matrixEntry D mu ma u aid)

/-- `user_similarities = self.user_similarity_matrix[user_idx]`: the target
user's row of the user×user cosine-similarity matrix. -/
noncomputable def collabSims (D : ProviderData) (mu ma : ℕ) (u : Int) : List ℝ :=
  (activeUserIds D mu).map (fun v => cosSim (userRow D mu ma u) (userRow D mu ma v))

/-- `self.user_mapping[user_id]`: the target user's row index. -/
def collabUserIdx (D : ProviderData) (mu : ℕ) (u : Int) : ℕ :=
  (activeUserIds D mu).findIdx (fun v => v = u)

/-- `similar_users = np.argsort(user_similarities)[::-1][1:11]`. -/
noncomputable def collabSimilarUsers (D : ProviderData) (mu ma : ℕ) (u : Int) : List ℕ :=
  (((argsortAsc (collabSims D mu ma u)).reverse).drop 1).take 10

/-- The `anime_scores` dict of `get_recommendations`: for each neighbor in
order and each anime column the neighbor rated (`> 0`) that the target left
unrated (`== 0`), accumulate `similarity * rating` under the anime id
recovered from the column position. -/
noncomputable def collabAnimeScores (D : ProviderData) (mu ma : ℕ) (u : Int) :
    List (Int × ℝ) :=
  let users := activeUserIds D mu
  let anime := popularAnimeIds D ma
  let sims := collabSims D mu ma u
  let targetRow := userRow D mu ma u
  (collabSimilarUsers D mu ma u).foldl (fun d j =>
    let nbrRow := userRow D mu ma (users.getD j 0)
    (List.range anime.length).foldl (fun d2 a =>
      if 0 < nbrRow.getD a 0 ∧ targetRow.getD a 0 = 0 then
        dictAdd d2 (anime.getD a 0) (sims.getD j 0 * (nbrRow.getD a 0 : ℝ))
      else d2) d) []

/-- `UserBasedCollaborativeFiltering.get_recommendations`: unmapped users get
the popularity fallback (`min_ratings=50`); mapped users get the score dict
sorted by score descending, truncated, and wrapped as records (anime ids
missing from the anime table are silently skipped). -/
noncomputable def collabGetRecommendations (D : ProviderData) (mu ma : ℕ)
    (u : Int) (n : ℕ) : List RecRecord :=
  if u ∈ activeUserIds D mu then
    let sorted := sortByDesc (fun p : Int × ℝ => p.2) (collabAnimeScores D mu ma u)
    (sorted.take n).filterMap (fun p =>
      (getAnimeInfo D p.1).map (fun a =>
        { anime_id := p.1, name := a.name, genre := a.genre, type := a.type,
          episodes := a.episodes, rating := a.rating,
          similarity_score := p.2, recommendation_type := "collaborative" }))
  else popularRecs D 50 n

/-! ### Content engine (`ContentBasedFiltering`)

The feature matrix (TF-IDF text vector ++ standardized numeric vector per
anime-table row) is kept as a parameter `F`; the engine's similarity matrix is
`simMatrixQ F`.  Every claim below holds for every feature matrix, hence in
particular for the one the vectorizer produces. -/

/-- Position of the first anime-table row with the given id
(`anime_data[anime_data['anime_id'] == anime_id].index[0]`). -/
def animeIdxOf (D : ProviderData) (aid : Int) : ℕ :=
  D.anime.findIdx (fun a => a.anime_id = aid)

/-- The `anime_scores` dict of `_get_similar_anime`: for each liked anime
present in the table, add its whole similarity row onto the per-candidate
accumulators, skipping candidates the user has already rated.  (Row/column
positions out of range contribute nothing; in the source the feature matrix
always has exactly one row per anime-table row, so the defaults are never
exercised there.) -/
noncomputable def contentAnimeScores (D : ProviderData) (F : List (List ℚ))
    (u : Int) : List (Int × ℝ) :=
  let rows := userRatingRows D u
  let rated := rows.map (fun x => x.anime_id)
  let liked := (rows.filter (fun x => 7 ≤ x.rating)).map (fun x => x.anime_id)
  liked.foldl (fun d aid =>
    if aid ∈ D.anime.map (fun a => a.anime_id) then
      let sims := (simMatrixQ F).getD (animeIdxOf D aid) []
      (List.range sims.length).foldl (fun d2 idx =>
        let cand := (D.anime.getD idx default).anime_id
        if cand ∉ rated then dictAdd d2 cand (sims.getD idx 0) else d2) d
    else d) []

/-- `ContentBasedFiltering.get_recommendations`: empty history or no anime
rated at least 7 gives the popularity fallback; otherwise the accumulated
similarity dict is sorted descending, truncated, and wrapped as records. -/
noncomputable def contentGetRecommendations (D : ProviderData)
    (F : List (List ℚ)) (u : Int) (n : ℕ) : List RecRecord :=
  let rows := userRatingRows D u
  if rows = [] then popularRecs D 50 n
  else if (rows.filter (fun x => 7 ≤ x.rating)).map (fun x => x.anime_id) = [] then
    popularRecs D 50 n
  else
    let sorted := sortByDesc (fun p : Int × ℝ => p.2) (contentAnimeScores D F u)
    (sorted.take n).filterMap (fun p =>
      (getAnimeInfo D p.1).map (fun a =>
        { anime_id := p.1, name := a.name, genre := a.genre, type := a.type,
          episodes := a.episodes, rating := a.rating,
          similarity_score := p.2, recommendation_type := "content_based" }))

/-! ### Hybrid combiner (`HybridRecommender`) -/

/-- One value of the `anime_scores` dict of `_combine_recommendations`. -/
structure CombEntry where
  collaborative_score : ℝ
  content_score : ℝ
  anime_info : RecRecord

/-- A combined record: the copied source record (with its type tag overwritten
to `'hybrid'`) plus the three score keys written into it. -/
structure HybridRecord where
  base : RecRecord
  hybrid_score : ℝ
  collaborative_score : ℝ
  content_score : ℝ

/-- First loop body of `_combine_recommendations`: create the entry if the id
is new, then assign its `collaborative_score` from the record. -/
def combInsert1 (d : List (Int × CombEntry)) (r : RecRecord) : List (Int × CombEntry) :=
  let d1 := if d.any (fun p => p.1 = r.anime_id) then d
            else d ++ [(r.anime_id, ⟨0, 0, r⟩)]
  d1.map (fun p => if p.1 = r.anime_id then
    (p.1, { p.2 with collaborative_score := r.similarity_score }) else p)

/-- Second loop body of `_combine_recommendations`: create the entry if the id
is new, then assign its `content_score` from the record. -/
def combInsert2 (d : List (Int × CombEntry)) (r : RecRecord) : List (Int × CombEntry) :=
  let d1 := if d.any (fun p => p.1 = r.anime_id) then d
            else d ++ [(r.anime_id, ⟨0, 0, r⟩)]
  d1.map (fun p => if p.1 = r.anime_id then
    (p.1, { p.2 with content_score := r.similarity_score }) else p)

/-- The `anime_scores` dict after both loops of `_combine_recommendations`. -/
def combineDict (cr ct : List RecRecord) : List (Int × CombEntry) :=
  ct.foldl combInsert2 (cr.foldl combInsert1 [])

/-- `HybridRecommender._combine_recommendations`: weighted fusion of the two
score sides, stable-sorted by hybrid score descending, truncated to `n`. -/
noncomputable def combineRecommendations (wc wt : ℝ) (cr ct : List RecRecord)
    (n : ℕ) : List HybridRecord :=
  let recs := (combineDict cr ct).map (fun p =>
    { base := { p.2.anime_info with recommendation_type := "hybrid" },
      hybrid_score := wc * p.2.collaborative_score + wt * p.2.content_score,
      collaborative_score := p.2.collaborative_score,
      content_score := p.2.content_score })
  (sortByDesc (fun h : HybridRecord => h.hybrid_score) recs).take n

/-- `HybridRecommender.get_recommendations`: ask each sub-engine (built on the
same provider with the default `max_users=10000`, `max_anime=5000`) for `2n`
candidates and fuse them with the instance weights. -/
noncomputable def hybridGetRecommendations (D : ProviderData) (F : List (List ℚ))
    (wc wt : ℝ) (u : Int) (n : ℕ) : List HybridRecord :=
  combineRecommendations wc wt
    (collabGetRecommendations D 10000 5000 u (n * 2))
    (contentGetRecommendations D F u (n * 2)) n

/-- A user's historical rating values (`user_ratings['rating']`). -/
def userHistory (D : ProviderData) (u : Int) : List ℚ :=
  (userRatingRows D u).map (fun x => x.rating)

/-- Sample variance with pandas' default `ddof=1` (division by `n - 1`). -/
def sampleVar (xs : List ℚ) : ℚ :=
  let n : ℚ := xs.length
  let m : ℚ := xs.sum / n
  (xs.map (fun x => (x - m) ^ 2)).sum / (n - 1)

/-- Sample standard deviation (`user_ratings['rating'].std()`), idealized over
`ℝ` for histories of at least two entries. -/
noncomputable def sampleStd (xs : List ℚ) : ℝ := Real.sqrt (sampleVar xs)

/-- The weight update of `get_personalized_recommendations`.  For a
single-entry history pandas' `std()` is NaN, both NaN comparisons are false
and the code keeps the default weights; that case is modelled by the explicit
length guard. -/
noncomputable def adaptedWeights (xs : List ℚ) : ℝ × ℝ :=
  if xs.length ≤ 1 then ((0.6 : ℝ), (0.4 : ℝ))
  else if sampleStd xs < 1 then ((0.3 : ℝ), (0.7 : ℝ))
  else if 2 < sampleStd xs then ((0.8 : ℝ), (0.2 : ℝ))
  else ((0.6 : ℝ), (0.4 : ℝ))

/-- `HybridRecommender.get_personalized_recommendations`, with the mutable
instance weights `w` passed and returned explicitly: an empty history falls
through to the default fusion with the weights untouched; otherwise the
weights are set from the history's standard deviation first. -/
noncomputable def getPersonalizedRecommendations (D : ProviderData)
    (F : List (List ℚ)) (w : ℝ × ℝ) (u : Int) (n : ℕ) :
    List HybridRecord × (ℝ × ℝ) :=
  if userHistory D u = [] then
    (hybridGetRecommendations D F w.1 w.2 u n, w)
  else
    let w2 := adaptedWeights (userHistory D u)
    (hybridGetRecommendations D F w2.1 w2.2 u n, w2)

/-! ### Recommendation facade (`RecommendationService`) -/

/-- `RecommendationService.get_popular_anime` (the `_get_fallback_recommendations`
path): the popular table with `min_ratings=100`, truncated and wrapped. -/
def svcFallback (D : ProviderData) (n : ℕ) : List RecRecord := popularRecs D 100 n

/-- `RecommendationService.get_recommendations` with the engine table left
abstract: an unknown strategy raises before the `try` block; a known strategy's
engine call is wrapped in `try/except`, any raised error being converted to the
popularity fallback. -/
def facadeGetRecommendations
    (engines : String → Int → ℕ → Except String (List RecRecord))
    (fallback : ℕ → List RecRecord) (u : Int) (s : String) (n : ℕ) :
    Except String (List RecRecord) :=
  if s ∈ ["collaborative", "content", "hybrid"] then
    match engines s u n with
    | .ok recs => .ok recs
    | .error _ => .ok (fallback n)
  else .error ("サポートされていない戦略: " ++ s)

/-- The facade's concrete strategy table (`self.strategies`), each engine
total in this model and hence wrapped in `.ok`.  The hybrid entry's records
are the combined dicts. -/
noncomputable def theStrategies (D : ProviderData) (F : List (List ℚ)) :
    String → Int → ℕ → Except String (List RecRecord) := fun s u n =>
  if s = "collaborative" then .ok (collabGetRecommendations D 10000 5000 u n)
  else if s = "content" then .ok (contentGetRecommendations D F u n)
  else .ok ((hybridGetRecommendations D F (0.6 : ℝ) (0.4 : ℝ) u n).map
    (fun h => h.base))

/-- The facade's `get_recommendations` over the concrete engines. -/
noncomputable def serviceGetRecommendations (D : ProviderData)
    (F : List (List ℚ)) (u : Int) (s : String) (n : ℕ) :
    Except String (List RecRecord) :=
  facadeGetRecommendations (theStrategies D F) (svcFallback D) u s n

/-- Facade state: the provider data and feature matrix (read-only) and the
`user_ratings_cache` dict. -/
structure ServiceState where
  data : ProviderData
  features : List (List ℚ)
  cache : List (Int × List Rating)

/-- The update-or-append loop of `add_rating` over one user's cached list:
replace the first entry with the same `anime_id`, else append. -/
def cacheUpdateList : List Rating → Rating → List Rating
  | [], nr => [nr]
  | x :: xs, nr =>
    if x.anime_id = nr.anime_id then nr :: xs else x :: cacheUpdateList xs nr

/-- `d[k] = v` on the cache dict. -/
def cacheSet (c : List (Int × List Rating)) (u : Int) (l : List Rating) :
    List (Int × List Rating) :=
  if c.any (fun p => p.1 = u) then
    c.map (fun p => if p.1 = u then (u, l) else p)
  else c ++ [(u, l)]

/-- `k in d` / `d[k]` on the cache dict. -/
def cacheLookup (c : List (Int × List Rating)) (u : Int) : Option (List Rating) :=
  (c.find? (fun p => p.1 = u)).map (fun p => p.2)

/-- `RecommendationService.add_rating`: writes only to `user_ratings_cache`. -/
def addRating (st : ServiceState) (u a : Int) (v : ℚ) : ServiceState :=
  let cur := (cacheLookup st.cache u).getD []
  { st with cache := cacheSet st.cache u (cacheUpdateList cur ⟨u, a, v⟩) }

/-- A sequence of `add_rating` calls. -/
def applyRatings (st : ServiceState) : List (Int × Int × ℚ) → ServiceState
  | [] => st
  | (u, a, v) :: ops => applyRatings (addRating st u a v) ops

/-- `RecommendationService.get_user_ratings`: cache hit returns the cached
list; a miss fetches the provider rows and caches them when non-empty. -/
def getUserRatings (st : ServiceState) (u : Int) : List Rating × ServiceState :=
  match cacheLookup st.cache u with
  | some l => (l, st)
  | none =>
    let rows := userRatingRows st.data u
    if rows = [] then ([], st)
    else (rows, { st with cache := cacheSet st.cache u rows })

/-- The facade's `get_recommendations` as a function of the service state:
the engines read only the provider data, never the cache. -/
noncomputable def serviceGetRecommendationsSt (st : ServiceState) (u : Int)
    (s : String) (n : ℕ) : Except String (List RecRecord) :=
  serviceGetRecommendations st.data st.features u s n

/-! ### Derived definitions used to state the claims -/

/-- Python-dict key insertion: append the key if it is not present yet. -/
def insertK (ks : List Int) (k : Int) : List Int :=
  if k ∈ ks then ks else ks ++ [k]

/-- The key order of a Python dict fed the given keys in order. -/
def dedupKeys (l : List Int) : List Int := l.foldl insertK []

/-- The collaborative engine's user×user similarity matrix
(`cosine_similarity(self.rating_matrix)`). -/
noncomputable def collabSimMatrix (D : ProviderData) (mu ma : ℕ) : List (List ℝ) :=
  simMatrixQ ((activeUserIds D mu).map (fun u => userRow D mu ma u))

/-- The content engine's item×item similarity matrix over a feature matrix
(`cosine_similarity(combined_features)`). -/
noncomputable def contentSimMatrix (F : List (List ℚ)) : List (List ℝ) :=
  simMatrixQ F

/-- The individual `score[anime_id] += similarity * rating` events of the
collaborative scoring loop, in loop order: one event per neighbor `j` (outer
loop) and column `a` (inner loop) such that the neighbor rated the column
(`> 0`) and the target user did not (`== 0`). -/
noncomputable def collabScoreEvents (D : ProviderData) (mu ma : ℕ) (u : Int) :
    List (Int × ℝ) :=
  let users := activeUserIds D mu
  let anime := popularAnimeIds D ma
  let sims := collabSims D mu ma u
  let targetRow := userRow D mu ma u
  (collabSimilarUsers D mu ma u).foldl (fun es j =>
    let nbrRow := userRow D mu ma (users.getD j 0)
    es ++ (List.range anime.length).filterMap (fun a =>
      if 0 < nbrRow.getD a 0 ∧ targetRow.getD a 0 = 0 then
        some (anime.getD a 0, sims.getD j 0 * (nbrRow.getD a 0 : ℝ))
      else none)) []

/-- The inner-loop score events contributed by neighbor `j` alone. -/
noncomputable def collabInnerEvents (D : ProviderData) (mu ma : ℕ) (u : Int)
    (j : ℕ) : List (Int × ℝ) :=
  (List.range (popularAnimeIds D ma).length).filterMap (fun a =>
    if 0 < (userRow D mu ma ((activeUserIds D mu).getD j 0)).getD a 0 ∧
        (userRow D mu ma u).getD a 0 = 0 then
      some ((popularAnimeIds D ma).getD a 0,
        (collabSims D mu ma u).getD j 0 *
          ((userRow D mu ma ((activeUserIds D mu).getD j 0)).getD a 0 : ℝ))
    else none)

/-- The inner loop of the collaborative scoring pass, as a dict transformer. -/
noncomputable def collabDictStep (D : ProviderData) (mu ma : ℕ) (u : Int)
    (d : List (Int × ℝ)) (j : ℕ) : List (Int × ℝ) :=
  (List.range (popularAnimeIds D ma).length).foldl (fun d2 a =>
    if 0 < (userRow D mu ma ((activeUserIds D mu).getD j 0)).getD a 0 ∧
        (userRow D mu ma u).getD a 0 = 0 then
      dictAdd d2 ((popularAnimeIds D ma).getD a 0)
        ((collabSims D mu ma u).getD j 0 *
          ((userRow D mu ma ((activeUserIds D mu).getD j 0)).getD a 0 : ℝ))
    else d2) d

/-! ### Concrete data sets for witnesses and counterexamples -/

/-- Two anime, the lower-rated one first in the table; each has one rating. -/
def exDataPop : ProviderData :=
  { anime := [⟨1, "A", "Action", "TV", 12, 5⟩, ⟨2, "B", "Drama", "TV", 24, 9⟩],
    ratings := [⟨1, 1, 8⟩, ⟨1, 2, 8⟩] }

/-- One user whose single rating row carries the value 0: its rating-matrix
row is all zeros. -/
def exDataZeroRow : ProviderData :=
  { anime := [⟨10, "Z", "", "", 0, 7⟩],
    ratings := [⟨1, 10, 0⟩] }

/-- Three users: users 1 and 2 have identical rating rows (similarity 1),
user 3 is orthogonal to them. -/
def exDataTie : ProviderData :=
  { anime := [⟨10, "X", "", "", 0, 7⟩, ⟨20, "Y", "", "", 0, 8⟩],
    ratings := [⟨1, 10, 5⟩, ⟨2, 10, 5⟩, ⟨3, 20, 5⟩] }

/-- Three users with pairwise distinct rows; user 1's self-similarity is
strictly above its similarity to everyone else. -/
def exDataStrict : ProviderData :=
  { anime := [⟨10, "X", "", "", 0, 7⟩, ⟨20, "Y", "", "", 0, 8⟩],
    ratings := [⟨1, 10, 5⟩, ⟨2, 10, 3⟩, ⟨2, 20, 4⟩, ⟨3, 20, 5⟩] }

/-- A collaborative candidate with score 0.8 for the fusion-arithmetic case. -/
def wrecCollab : RecRecord :=
  ⟨1, "A", "Action", "TV", 12, 7, (0.8 : ℝ), "collaborative"⟩

/-- A content candidate with score 0.5 for the same item. -/
def wrecContent : RecRecord :=
  ⟨1, "A", "Action", "TV", 12, 7, (0.5 : ℝ), "content_based"⟩

/-- Rating histories for the weight-adaptation cases: user 1 rates
`[9,9,9,9]`, user 2 rates `[1,10,2,9]`, user 3 rates `[5,6,7]`, user 4 has a
single rating, user 99 has none. -/
def exDataStd : ProviderData :=
  { anime := [⟨1, "A", "", "", 0, 5⟩, ⟨2, "B", "", "", 0, 6⟩,
              ⟨3, "C", "", "", 0, 7⟩, ⟨4, "D", "", "", 0, 8⟩],
    ratings := [⟨1, 1, 9⟩, ⟨1, 2, 9⟩, ⟨1, 3, 9⟩, ⟨1, 4, 9⟩,
                ⟨2, 1, 1⟩, ⟨2, 2, 10⟩, ⟨2, 3, 2⟩, ⟨2, 4, 9⟩,
                ⟨3, 1, 5⟩, ⟨3, 2, 6⟩, ⟨3, 3, 7⟩,
                ⟨4, 1, 8⟩] }

/-! ## Shared lemmas -/

theorem popularRecs_length_le (D : ProviderData) (m k : ℕ) :
    (popularRecs D m k).length ≤ k := by
  simp only [popularRecs, List.length_map]
  exact List.length_take_le k (getPopularAnime D m)

theorem popularRecs_ids_sublist (D : ProviderData) (m k : ℕ) :
    ((popularRecs D m k).map (fun r => r.anime_id)).Sublist
      (D.anime.map (fun a => a.anime_id)) := by
  unfold popularRecs getPopularAnime
  rw [List.map_map]
  exact ((List.take_sublist _ _).trans (List.filter_sublist _)).map _

theorem popularRecs_mem (D : ProviderData) (m k : ℕ) (r : RecRecord)
    (hr : r ∈ popularRecs D m k) :
    m ≤ countA D r.anime_id ∧ r.anime_id ∈ D.ratings.map (fun x => x.anime_id) ∧
      r.recommendation_type = "popular" ∧ r.similarity_score = 0 := by
  unfold popularRecs at hr
  obtain ⟨a, ha, rfl⟩ := List.mem_map.1 hr
  have ha2 : a ∈ getPopularAnime D m := (List.take_sublist _ _).mem ha
  unfold getPopularAnime at ha2
  have := List.of_mem_filter ha2
  simp only [decide_eq_true_eq] at this
  exact ⟨this.2, this.1, rfl, rfl⟩

/-! ## C1 — popularity fallback -/

/-- **C1, counterexample.**  The claim states the popularity fallback is
"ordered by provider-reported aggregate rating descending".  On `exDataPop`
(both anime have one observed rating, so both pass `min_rating_count = 1`)
the fallback returns the table-order ratings `[5, 9]`, which is not sorted
descending: the code never sorts `get_popular_anime`'s output. -/
theorem C1_counterexample :
    ((popularRecs exDataPop 1 2).map (fun r => r.rating)) = [5, 9] ∧
    ¬ List.Sorted (fun a b : ℚ => b ≤ a)
        ((popularRecs exDataPop 1 2).map (fun r => r.rating)) := by
  constructor
  · decide
  · intro h
    have h59 : ((popularRecs exDataPop 1 2).map (fun r => r.rating)) = [5, 9] := by decide
    rw [h59] at h
    have := List.rel_of_sorted_cons h 9 (by simp)
    norm_num at this

/-- **C1, amended.**  For every `min_rating_count` and every `k`, the
popularity fallback returns only items with at least `min_rating_count`
observed ratings, truncated to the top `k`, each tagged
`recommendation_type = 'popular'` with score 0 — but in the item table's own
order (no sort by aggregate rating is applied): the output's id sequence is a
sublist of the item table's id sequence. -/
theorem C1_amended (D : ProviderData) (m k : ℕ) :
    (popularRecs D m k).length ≤ k ∧
    ((popularRecs D m k).map (fun r => r.anime_id)).Sublist
      (D.anime.map (fun a => a.anime_id)) ∧
    ∀ i, i < (popularRecs D m k).length →
      m ≤ countA D ((popularRecs D m k).getD i default).anime_id ∧
      ((popularRecs D m k).getD i default).recommendation_type = "popular" ∧
      ((popularRecs D m k).getD i default).similarity_score = 0 := by
  refine ⟨popularRecs_length_le D m k, popularRecs_ids_sublist D m k, ?_⟩
  intro i hi
  have hmem : (popularRecs D m k).getD i default ∈ popularRecs D m k := by
    rw [List.getD_eq_getElem _ _ hi]
    exact List.getElem_mem hi
  have := popularRecs_mem D m k _ hmem
  exact ⟨this.1, this.2.2.1, this.2.2.2⟩

/-- **C1, witness** for the amended theorem at the concrete table
`exDataPop`, threshold 1, `k = 2`, first record. -/
theorem C1_amended_witness :
    (0 : ℕ) < (popularRecs exDataPop 1 2).length ∧
    (1 ≤ countA exDataPop ((popularRecs exDataPop 1 2).getD 0 default).anime_id ∧
      ((popularRecs exDataPop 1 2).getD 0 default).recommendation_type = "popular" ∧
      ((popularRecs exDataPop 1 2).getD 0 default).similarity_score = 0) :=
  ⟨by decide, (C1_amended exDataPop 1 2).2.2 0 (by decide)⟩

/-! ## C2 — invalid strategy fails loudly -/

/-- **C2.**  For every provider data, feature matrix, user and `k`, a
strategy string outside `{'collaborative', 'content', 'hybrid'}` makes the
facade raise the invalid-strategy `ValueError` (before the `try` block), and
it never returns a recommendation list — in particular no popularity
fallback. -/
theorem C2_invalid_strategy (D : ProviderData) (F : List (List ℚ)) (u : Int)
    (k : ℕ) (s : String) (hs : s ∉ ["collaborative", "content", "hybrid"]) :
    serviceGetRecommendations D F u s k =
      .error ("サポートされていない戦略: " ++ s) ∧
    ∀ l, serviceGetRecommendations D F u s k ≠ .ok l := by
  have h : serviceGetRecommendations D F u s k =
      .error ("サポートされていない戦略: " ++ s) := by
    unfold serviceGetRecommendations facadeGetRecommendations
    rw [if_neg hs]
  exact ⟨h, fun l hl => by rw [h] at hl; exact Except.noConfusion hl⟩

/-- **C2, witness** at strategy `"bogus"`. -/
theorem C2_invalid_strategy_witness :
    serviceGetRecommendations exDataPop [] 1 "bogus" 5 =
      .error ("サポートされていない戦略: " ++ "bogus") ∧
    ∀ l, serviceGetRecommendations exDataPop [] 1 "bogus" 5 ≠ .ok l :=
  C2_invalid_strategy exDataPop [] 1 5 "bogus" (by decide)

/-! ## C3 — engine failures are downgraded to the fallback -/

/-- **C3.**  For every valid strategy, user and `k`, and every behavior of
the engine table: if the selected engine's `get_recommendations` raises
(returns `.error`), the facade catches it and returns the popularity
fallback (`get_popular_anime` with `min_ratings=100`); and whatever the
engine does, the facade never propagates an error for a valid strategy. -/
theorem C3_engine_error_fallback (D : ProviderData)
    (engines : String → Int → ℕ → Except String (List RecRecord))
    (u : Int) (k : ℕ) (s : String) (e : String)
    (hs : s ∈ ["collaborative", "content", "hybrid"])
    (herr : engines s u k = .error e) :
    facadeGetRecommendations engines (svcFallback D) u s k =
      .ok (svcFallback D k) ∧
    ∀ engines2 : String → Int → ℕ → Except String (List RecRecord),
      ∃ l, facadeGetRecommendations engines2 (svcFallback D) u s k = .ok l := by
  constructor
  · unfold facadeGetRecommendations
    rw [if_pos hs, herr]
  · intro engines2
    unfold facadeGetRecommendations
    rw [if_pos hs]
    cases h2 : engines2 s u k with
    | ok l => exact ⟨l, rfl⟩
    | error e2 => exact ⟨svcFallback D k, rfl⟩

/-- **C3, witness**: a collaborative engine raising a data-load error is
downgraded to the fallback on `exDataPop`. -/
theorem C3_engine_error_fallback_witness :
    facadeGetRecommendations (fun _ _ _ => .error "データ読み込みエラー")
        (svcFallback exDataPop) 7 "collaborative" 3 =
      .ok (svcFallback exDataPop 3) ∧
    ∀ engines2 : String → Int → ℕ → Except String (List RecRecord),
      ∃ l, facadeGetRecommendations engines2 (svcFallback exDataPop) 7
        "collaborative" 3 = .ok l :=
  C3_engine_error_fallback exDataPop (fun _ _ _ => .error "データ読み込みエラー")
    7 3 "collaborative" "データ読み込みエラー" (by decide) rfl

/-! ## C10 — ratings cache never feeds the engines -/

theorem addRating_data (st : ServiceState) (u a : Int) (v : ℚ) :
    (addRating st u a v).data = st.data ∧
    (addRating st u a v).features = st.features := ⟨rfl, rfl⟩

theorem applyRatings_data (ops : List (Int × Int × ℚ)) :
    ∀ st : ServiceState, (applyRatings st ops).data = st.data ∧
      (applyRatings st ops).features = st.features := by
  induction ops with
  | nil => intro st; exact ⟨rfl, rfl⟩
  | cons op ops ih =>
    intro st
    obtain ⟨u, a, v⟩ := op
    simpa [applyRatings] using ih (addRating st u a v)

theorem find_map_cacheSet (c : List (Int × List Rating)) (u : Int)
    (l : List Rating) (h : c.any (fun p => p.1 = u) = true) :
    (c.map (fun p => if p.1 = u then (u, l) else p)).find?
      (fun p => p.1 = u) = some (u, l) := by
  induction c with
  | nil => simp at h
  | cons p rest ih =>
    by_cases hp : p.1 = u
    · simp [List.find?, hp]
    · simp only [List.any_cons, hp, decide_False, Bool.false_or] at h
      simp [List.find?, hp, ih h]

theorem find_append_cacheSet (c : List (Int × List Rating)) (u : Int)
    (l : List Rating) (h : c.any (fun p => p.1 = u) = false) :
    (c ++ [(u, l)]).find? (fun p => p.1 = u) = some (u, l) := by
  induction c with
  | nil => simp [List.find?]
  | cons p rest ih =>
    simp only [List.any_cons, Bool.or_eq_false_iff, decide_eq_false_iff_not] at h
    simp only [List.cons_append]
    rw [List.find?_cons_of_neg _ (by simpa using h.1)]
    exact ih (by simpa [List.any_eq_false] using h.2)

theorem cacheLookup_set (c : List (Int × List Rating)) (u : Int)
    (l : List Rating) : cacheLookup (cacheSet c u l) u = some l := by
  unfold cacheSet cacheLookup
  by_cases h : c.any (fun p => p.1 = u) = true
  · rw [if_pos h, find_map_cacheSet c u l h]; rfl
  · rw [if_neg h, find_append_cacheSet c u l ((Bool.not_eq_true _) ▸ h)]; rfl

theorem mem_cacheUpdateList (l : List Rating) (nr : Rating) :
    nr ∈ cacheUpdateList l nr := by
  induction l with
  | nil => simp [cacheUpdateList]
  | cons x xs ih =>
    unfold cacheUpdateList
    by_cases hx : x.anime_id = nr.anime_id
    · simp [hx]
    · simp only [hx, if_false]
      exact List.mem_cons_of_mem x ih

/-- **C10.**  The facade's recommendation output is invariant under any prior
sequence of `add_rating` calls — `add_rating` writes only to
`user_ratings_cache`, which no engine reads — while the added rating is
observable through `get_user_ratings`. -/
theorem C10_cache_noninterference (st : ServiceState)
    (ops : List (Int × Int × ℚ)) (q : Int) (s : String) (k : ℕ) :
    serviceGetRecommendationsSt (applyRatings st ops) q s k =
      serviceGetRecommendationsSt st q s k ∧
    ∀ (u a : Int) (v : ℚ),
      (⟨u, a, v⟩ : Rating) ∈ (getUserRatings (addRating st u a v) u).1 := by
  constructor
  · unfold serviceGetRecommendationsSt
    rw [(applyRatings_data ops st).1, (applyRatings_data ops st).2]
  · intro u a v
    have hc : cacheLookup (addRating st u a v).cache u =
        some (cacheUpdateList ((cacheLookup st.cache u).getD []) ⟨u, a, v⟩) := by
      unfold addRating
      exact cacheLookup_set _ _ _
    unfold getUserRatings
    rw [hc]
    exact mem_cacheUpdateList _ _

/-! ## C7 — adaptive weight selection -/

theorem sampleVar_nonneg (xs : List ℚ) (h : 2 ≤ xs.length) :
    0 ≤ sampleVar xs := by
  unfold sampleVar
  have h2 : (2 : ℚ) ≤ (xs.length : ℚ) := by exact_mod_cast h
  refine div_nonneg (List.sum_nonneg ?_) (by linarith)
  intro x hx
  obtain ⟨y, _, rfl⟩ := List.mem_map.1 hx
  positivity

theorem sampleStd_lt_one_iff (xs : List ℚ) :
    sampleStd xs < 1 ↔ sampleVar xs < 1 := by
  unfold sampleStd
  rw [show (1 : ℝ) = Real.sqrt (((1 : ℚ) : ℝ)) by norm_num,
    Real.sqrt_lt_sqrt_iff_of_pos (by norm_num), Rat.cast_lt]

theorem two_lt_sampleStd_iff (xs : List ℚ) :
    2 < sampleStd xs ↔ 4 < sampleVar xs := by
  unfold sampleStd
  rw [Real.lt_sqrt (by norm_num),
    show ((2 : ℝ) ^ 2) = (((4 : ℚ) : ℝ)) by norm_num, Rat.cast_lt]

/-- **C7.**  The adaptive variant: an empty history falls through to the
default fusion with the instance weights untouched; otherwise the weights are
set from the sample standard deviation of the user's historical ratings —
std < 1.0 gives 0.3/0.7, std > 2.0 gives 0.8/0.2, anything else (including
the single-rating history, whose pandas `std()` is NaN) gives 0.6/0.4 — and
the returned list is the default fusion run with the chosen weights. -/
theorem C7_adaptive_weights (D : ProviderData) (F : List (List ℚ))
    (w : ℝ × ℝ) (u : Int) (k : ℕ) :
    (userHistory D u = [] →
      getPersonalizedRecommendations D F w u k =
        (hybridGetRecommendations D F w.1 w.2 u k, w)) ∧
    (userHistory D u ≠ [] →
      (getPersonalizedRecommendations D F w u k).1 =
        hybridGetRecommendations D F
          (getPersonalizedRecommendations D F w u k).2.1
          (getPersonalizedRecommendations D F w u k).2.2 u k) ∧
    (2 ≤ (userHistory D u).length →
      (sampleStd (userHistory D u) < 1 ↔ sampleVar (userHistory D u) < 1) ∧
      (2 < sampleStd (userHistory D u) ↔ 4 < sampleVar (userHistory D u)) ∧
      (sampleVar (userHistory D u) < 1 →
        (getPersonalizedRecommendations D F w u k).2 = (0.3, 0.7)) ∧
      (4 < sampleVar (userHistory D u) →
        (getPersonalizedRecommendations D F w u k).2 = (0.8, 0.2)) ∧
      (1 ≤ sampleVar (userHistory D u) → sampleVar (userHistory D u) ≤ 4 →
        (getPersonalizedRecommendations D F w u k).2 = (0.6, 0.4))) ∧
    ((userHistory D u).length = 1 →
      (getPersonalizedRecommendations D F w u k).2 = (0.6, 0.4)) := by
  refine ⟨?_, ?_, ?_, ?_⟩
  · intro h
    unfold getPersonalizedRecommendations
    rw [if_pos h]
  · intro h
    unfold getPersonalizedRecommendations
    rw [if_neg h]
  · intro h2
    have hne : userHistory D u ≠ [] := by
      intro hnil; rw [hnil] at h2; simp at h2
    have hlen : ¬ (userHistory D u).length ≤ 1 := by omega
    have hsnd : (getPersonalizedRecommendations D F w u k).2 =
        adaptedWeights (userHistory D u) := by
      unfold getPersonalizedRecommendations
      rw [if_neg hne]
    refine ⟨sampleStd_lt_one_iff _, two_lt_sampleStd_iff _, ?_, ?_, ?_⟩
    · intro hv
      rw [hsnd]
      unfold adaptedWeights
      rw [if_neg hlen, if_pos ((sampleStd_lt_one_iff _).2 hv)]
    · intro hv
      have hns : ¬ sampleStd (userHistory D u) < 1 := by
        rw [sampleStd_lt_one_iff]; linarith
      rw [hsnd]
      unfold adaptedWeights
      rw [if_neg hlen, if_neg hns, if_pos ((two_lt_sampleStd_iff _).2 hv)]
    · intro hv1 hv4
      have hns : ¬ sampleStd (userHistory D u) < 1 := by
        rw [sampleStd_lt_one_iff]; linarith
      have hns2 : ¬ 2 < sampleStd (userHistory D u) := by
        rw [two_lt_sampleStd_iff]; linarith
      rw [hsnd]
      unfold adaptedWeights
      rw [if_neg hlen, if_neg hns, if_neg hns2]
  · intro h1
    have hne : userHistory D u ≠ [] := by
      intro hnil; rw [hnil] at h1; simp at h1
    have hsnd : (getPersonalizedRecommendations D F w u k).2 =
        adaptedWeights (userHistory D u) := by
      unfold getPersonalizedRecommendations
      rw [if_neg hne]
    rw [hsnd]
    unfold adaptedWeights
    rw [if_pos (by omega)]

/-- **C7, witness** on `exDataStd`: histories `[9,9,9,9]`, `[1,10,2,9]`,
`[5,6,7]`, `[8]` and the empty history resolve the weights to 0.3/0.7,
0.8/0.2, 0.6/0.4, 0.6/0.4 and the unchanged input weights respectively. -/
theorem C7_adaptive_weights_witness :
    (getPersonalizedRecommendations exDataStd [] ((0.6 : ℝ), (0.4 : ℝ)) 1 5).2
      = (0.3, 0.7) ∧
    (getPersonalizedRecommendations exDataStd [] ((0.6 : ℝ), (0.4 : ℝ)) 2 5).2
      = (0.8, 0.2) ∧
    (getPersonalizedRecommendations exDataStd [] ((0.6 : ℝ), (0.4 : ℝ)) 3 5).2
      = (0.6, 0.4) ∧
    (getPersonalizedRecommendations exDataStd [] ((0.6 : ℝ), (0.4 : ℝ)) 4 5).2
      = (0.6, 0.4) ∧
    getPersonalizedRecommendations exDataStd [] ((0.6 : ℝ), (0.4 : ℝ)) 99 5 =
      (hybridGetRecommendations exDataStd [] 0.6 0.4 99 5,
        ((0.6 : ℝ), (0.4 : ℝ))) := by
  have e1 : userHistory exDataStd 1 = [9, 9, 9, 9] := by decide
  have e2 : userHistory exDataStd 2 = [1, 10, 2, 9] := by decide
  have e3 : userHistory exDataStd 3 = [5, 6, 7] := by decide
  have evalList : ∀ xs : List ℚ, sampleVar xs =
      (xs.map (fun x => (x - xs.sum / (xs.length : ℚ)) ^ 2)).sum /
        ((xs.length : ℚ) - 1) := fun xs => rfl
  refine ⟨?_, ?_, ?_, ?_, ?_⟩
  · exact ((C7_adaptive_weights exDataStd [] (0.6, 0.4) 1 5).2.2.1
      (by rw [e1]; decide)).2.2.1 (by rw [e1, evalList]; norm_num)
  · exact ((C7_adaptive_weights exDataStd [] (0.6, 0.4) 2 5).2.2.1
      (by rw [e2]; decide)).2.2.2.1 (by rw [e2, evalList]; norm_num)
  · exact (((C7_adaptive_weights exDataStd [] (0.6, 0.4) 3 5).2.2.1
      (by rw [e3]; decide)).2.2.2.2 (by rw [e3, evalList]; norm_num))
      (by rw [e3, evalList]; norm_num)
  · exact (C7_adaptive_weights exDataStd [] (0.6, 0.4) 4 5).2.2.2 (by decide)
  · exact (C7_adaptive_weights exDataStd [] (0.6, 0.4) 99 5).1 (by decide)

/-! ## C5 — similarity matrices: square, symmetric, diagonal -/

theorem getD_map_of_lt {α β : Type} (f : α → β) (l : List α) (i : ℕ) (d : β)
    (d' : α) (h : i < l.length) : (l.map f).getD i d = f (l.getD i d') := by
  rw [List.getD_eq_getElem _ _ (by simpa using h), List.getD_eq_getElem _ _ h]
  simp

theorem dotQ_comm (x y : List ℚ) : dotQ x y = dotQ y x := by
  unfold dotQ
  rw [List.zipWith_comm_of_comm _ mul_comm]

theorem dotQ_self_nonneg (x : List ℚ) : 0 ≤ dotQ x x := by
  unfold dotQ
  rw [List.zipWith_same]
  refine List.sum_nonneg ?_
  intro a ha
  obtain ⟨b, _, rfl⟩ := List.mem_map.1 ha
  exact mul_self_nonneg b

theorem cosSim_comm (x y : List ℚ) : cosSim x y = cosSim y x := by
  unfold cosSim
  by_cases h : dotQ x x = 0 ∨ dotQ y y = 0
  · rw [if_pos h, if_pos (Or.symm h)]
  · rw [if_neg h, if_neg (fun hc => h (Or.symm hc)), dotQ_comm x y, mul_comm]

theorem cosSim_self (x : List ℚ) (h : dotQ x x ≠ 0) : cosSim x x = 1 := by
  unfold cosSim
  rw [if_neg (by simp [h])]
  rw [Real.mul_self_sqrt (by exact_mod_cast dotQ_self_nonneg x)]
  exact div_self (by exact_mod_cast h)

theorem cosSim_self_zero (x : List ℚ) (h : dotQ x x = 0) : cosSim x x = 0 := by
  unfold cosSim
  rw [if_pos (Or.inl h)]

theorem cosSim_of_dot_eq_zero (x y : List ℚ) (h : dotQ x y = 0) :
    cosSim x y = 0 := by
  unfold cosSim
  split
  · rfl
  · rw [h]
    simp

theorem simMatrixQ_length (rows : List (List ℚ)) :
    (simMatrixQ rows).length = rows.length := by
  simp [simMatrixQ]

theorem simMatrixQ_row_length (rows : List (List ℚ)) (i : ℕ)
    (hi : i < rows.length) :
    ((simMatrixQ rows).getD i []).length = rows.length := by
  unfold simMatrixQ
  rw [getD_map_of_lt _ _ _ _ [] hi]
  simp

theorem simMatrixQ_entry (rows : List (List ℚ)) (i j : ℕ)
    (hi : i < rows.length) (hj : j < rows.length) :
    ((simMatrixQ rows).getD i []).getD j 0 =
      cosSim (rows.getD i []) (rows.getD j []) := by
  unfold simMatrixQ
  rw [getD_map_of_lt _ _ _ _ [] hi, getD_map_of_lt _ _ _ _ [] hj]

theorem simMatrixQ_symm (rows : List (List ℚ)) (i j : ℕ) :
    ((simMatrixQ rows).getD i []).getD j 0 =
      ((simMatrixQ rows).getD j []).getD i 0 := by
  by_cases hi : i < rows.length
  · by_cases hj : j < rows.length
    · rw [simMatrixQ_entry rows i j hi hj, simMatrixQ_entry rows j i hj hi,
        cosSim_comm]
    · have h1 : ((simMatrixQ rows).getD i []).getD j 0 = 0 := by
        apply List.getD_eq_default
        rw [simMatrixQ_row_length rows i hi]; omega
      have h2 : (simMatrixQ rows).getD j [] = [] := by
        apply List.getD_eq_default
        rw [simMatrixQ_length]; omega
      rw [h1, h2]
      simp
  · by_cases hj : j < rows.length
    · have h1 : ((simMatrixQ rows).getD j []).getD i 0 = 0 := by
        apply List.getD_eq_default
        rw [simMatrixQ_row_length rows j hj]; omega
      have h2 : (simMatrixQ rows).getD i [] = [] := by
        apply List.getD_eq_default
        rw [simMatrixQ_length]; omega
      rw [h1, h2]
      simp
    · have h1 : (simMatrixQ rows).getD i [] = [] := by
        apply List.getD_eq_default
        rw [simMatrixQ_length]; omega
      have h2 : (simMatrixQ rows).getD j [] = [] := by
        apply List.getD_eq_default
        rw [simMatrixQ_length]; omega
      rw [h1, h2]
      simp

theorem simMatrixQ_diag (rows : List (List ℚ)) (i : ℕ) (hi : i < rows.length)
    (h : dotQ (rows.getD i []) (rows.getD i []) ≠ 0) :
    ((simMatrixQ rows).getD i []).getD i 0 = 1 := by
  rw [simMatrixQ_entry rows i i hi hi]
  exact cosSim_self _ h

/-- **C5, counterexample.**  The claim states every diagonal entry equals 1.0
"including for users whose rating row is all zeros".  On `exDataZeroRow` the
single user's matrix row is `[0]` (its one stored rating has value 0), and
sklearn's cosine similarity of a zero row with itself is 0, not 1: the code's
user-similarity matrix has a 0 on that diagonal entry. -/
theorem C5_counterexample :
    ((collabSimMatrix exDataZeroRow 10000 5000).getD 0 []).getD 0 0 = 0 ∧
    ((0 : ℝ) ≠ 1) := by
  constructor
  · have hu : activeUserIds exDataZeroRow 10000 = [1] := by decide
    have hrow : userRow exDataZeroRow 10000 5000 1 = [0] := by
      norm_num [userRow, matrixEntry, popularAnimeIds, activeUserIds,
        nlargestIds, sortedDistinct, countA, countU, exDataZeroRow, List.filter,
        List.insertionSort, List.orderedInsert]
    unfold collabSimMatrix
    rw [hu]
    simp only [List.map_cons, List.map_nil, hrow]
    have he : ((simMatrixQ [[(0 : ℚ)]]).getD 0 []).getD 0 0 = cosSim [0] [0] :=
      simMatrixQ_entry [[0]] 0 0 (by simp) (by simp)
    rw [he]
    refine cosSim_self_zero [0] ?_
    norm_num [dotQ]
  · norm_num

/-- **C5, amended.**  Both engine similarity matrices (the collaborative
user×user matrix and the content item×item matrix over any feature matrix)
are square and symmetric, and every diagonal entry whose underlying row is
not all zeros (nonzero self-dot) equals 1.0; a zero row instead yields 0 on
its diagonal (sklearn's zero-norm convention), as the counterexample shows. -/
theorem C5_amended (D : ProviderData) (mu ma : ℕ) (F : List (List ℚ)) :
    ((collabSimMatrix D mu ma).length = (activeUserIds D mu).length ∧
     (∀ i, i < (activeUserIds D mu).length →
        ((collabSimMatrix D mu ma).getD i []).length = (activeUserIds D mu).length) ∧
     (∀ i j, ((collabSimMatrix D mu ma).getD i []).getD j 0 =
        ((collabSimMatrix D mu ma).getD j []).getD i 0) ∧
     (∀ i, i < (activeUserIds D mu).length →
        dotQ (userRow D mu ma ((activeUserIds D mu).getD i 0))
             (userRow D mu ma ((activeUserIds D mu).getD i 0)) ≠ 0 →
        ((collabSimMatrix D mu ma).getD i []).getD i 0 = 1)) ∧
    ((contentSimMatrix F).length = F.length ∧
     (∀ i, i < F.length → ((contentSimMatrix F).getD i []).length = F.length) ∧
     (∀ i j, ((contentSimMatrix F).getD i []).getD j 0 =
        ((contentSimMatrix F).getD j []).getD i 0) ∧
     (∀ i, i < F.length → dotQ (F.getD i []) (F.getD i []) ≠ 0 →
        ((contentSimMatrix F).getD i []).getD i 0 = 1)) := by
  constructor
  · unfold collabSimMatrix
    refine ⟨by rw [simMatrixQ_length]; simp, ?_, ?_, ?_⟩
    · intro i hi
      rw [simMatrixQ_row_length _ i (by simpa using hi)]
      simp
    · intro i j
      exact simMatrixQ_symm _ i j
    · intro i hi h
      refine simMatrixQ_diag _ i (by simpa using hi) ?_
      rw [getD_map_of_lt _ _ _ _ 0 hi]
      exact h
  · unfold contentSimMatrix
    exact ⟨simMatrixQ_length F, fun i hi => simMatrixQ_row_length F i hi,
      fun i j => simMatrixQ_symm F i j,
      fun i hi h => simMatrixQ_diag F i hi h⟩

/-- **C5, witness** for the amended theorem: on `exDataTie` user index 0 has a
nonzero row, so its diagonal similarity is 1. -/
theorem C5_amended_witness :
    dotQ (userRow exDataTie 10000 5000 ((activeUserIds exDataTie 10000).getD 0 0))
         (userRow exDataTie 10000 5000 ((activeUserIds exDataTie 10000).getD 0 0)) ≠ 0 ∧
    ((collabSimMatrix exDataTie 10000 5000).getD 0 []).getD 0 0 = 1 := by
  have hu : (activeUserIds exDataTie 10000).getD 0 0 = 1 := by decide
  have hrow : userRow exDataTie 10000 5000 1 = [5, 0] := by
    norm_num [userRow, matrixEntry, popularAnimeIds, activeUserIds,
      nlargestIds, sortedDistinct, countA, countU, exDataTie, List.filter,
      List.insertionSort, List.orderedInsert]
  have hd : dotQ (userRow exDataTie 10000 5000
        ((activeUserIds exDataTie 10000).getD 0 0))
      (userRow exDataTie 10000 5000
        ((activeUserIds exDataTie 10000).getD 0 0)) ≠ 0 := by
    rw [hu, hrow]
    norm_num [dotQ, List.zipWith]
  exact ⟨hd, (C5_amended exDataTie 10000 5000 []).1.2.2.2 0 (by decide) hd⟩

/-! ## C6 — hybrid fusion: dict lemmas -/

theorem combInsert1_mem (d : List (Int × CombEntry)) (r : RecRecord)
    (q : Int × CombEntry) (hq : q ∈ combInsert1 d r) :
    (q.1 = r.anime_id ∧ q.2.collaborative_score = r.similarity_score) ∨ q ∈ d := by
  unfold combInsert1 at hq
  obtain ⟨p, hp, rfl⟩ := List.mem_map.1 hq
  by_cases hpe : p.1 = r.anime_id
  · rw [if_pos hpe]
    exact Or.inl ⟨hpe, rfl⟩
  · rw [if_neg hpe]
    right
    rcases (by assumption : _ ∈ if d.any (fun p => p.1 = r.anime_id) then d
        else d ++ [(r.anime_id, ⟨0, 0, r⟩)]) with hp2
    by_cases hany : d.any (fun p => p.1 = r.anime_id) = true
    · rw [if_pos hany] at hp; exact hp
    · rw [if_neg hany] at hp
      rcases List.mem_append.1 hp with hin | hnew
      · exact hin
      · exact absurd (by simpa using hnew : p = (r.anime_id, ⟨0, 0, r⟩))
          (fun he => hpe (by rw [he]))

theorem combInsert2_mem (d : List (Int × CombEntry)) (r : RecRecord)
    (q : Int × CombEntry) (hq : q ∈ combInsert2 d r) :
    (q.1 = r.anime_id ∧ q.2.content_score = r.similarity_score) ∨ q ∈ d := by
  unfold combInsert2 at hq
  obtain ⟨p, hp, rfl⟩ := List.mem_map.1 hq
  by_cases hpe : p.1 = r.anime_id
  · rw [if_pos hpe]
    exact Or.inl ⟨hpe, rfl⟩
  · rw [if_neg hpe]
    right
    by_cases hany : d.any (fun p => p.1 = r.anime_id) = true
    · rw [if_pos hany] at hp; exact hp
    · rw [if_neg hany] at hp
      rcases List.mem_append.1 hp with hin | hnew
      · exact hin
      · exact absurd (by simpa using hnew : p = (r.anime_id, ⟨0, 0, r⟩))
          (fun he => hpe (by rw [he]))

theorem combInsert1_mem_content (d : List (Int × CombEntry)) (r : RecRecord)
    (q : Int × CombEntry) (hq : q ∈ combInsert1 d r) :
    (∃ p ∈ d, p.1 = q.1 ∧ p.2.content_score = q.2.content_score) ∨
      q.2.content_score = 0 := by
  unfold combInsert1 at hq
  obtain ⟨p, hp, rfl⟩ := List.mem_map.1 hq
  have hps : (if p.1 = r.anime_id then
      (p.1, { p.2 with collaborative_score := r.similarity_score }) else p).2.content_score
      = p.2.content_score ∧
      (if p.1 = r.anime_id then
      (p.1, { p.2 with collaborative_score := r.similarity_score }) else p).1 = p.1 := by
    by_cases hpe : p.1 = r.anime_id <;> simp [hpe]
  rw [hps.1, hps.2]
  by_cases hany : d.any (fun p => p.1 = r.anime_id) = true
  · rw [if_pos hany] at hp
    exact Or.inl ⟨p, hp, rfl, rfl⟩
  · rw [if_neg hany] at hp
    rcases List.mem_append.1 hp with hin | hnew
    · exact Or.inl ⟨p, hin, rfl, rfl⟩
    · right
      have : p = (r.anime_id, ⟨0, 0, r⟩) := by simpa using hnew
      rw [this]

theorem combInsert2_mem_collab (d : List (Int × CombEntry)) (r : RecRecord)
    (q : Int × CombEntry) (hq : q ∈ combInsert2 d r) :
    (∃ p ∈ d, p.1 = q.1 ∧
      p.2.collaborative_score = q.2.collaborative_score) ∨
      q.2.collaborative_score = 0 := by
  unfold combInsert2 at hq
  obtain ⟨p, hp, rfl⟩ := List.mem_map.1 hq
  have hps : (if p.1 = r.anime_id then
      (p.1, { p.2 with content_score := r.similarity_score }) else p).2.collaborative_score
      = p.2.collaborative_score ∧
      (if p.1 = r.anime_id then
      (p.1, { p.2 with content_score := r.similarity_score }) else p).1 = p.1 := by
    by_cases hpe : p.1 = r.anime_id <;> simp [hpe]
  rw [hps.1, hps.2]
  by_cases hany : d.any (fun p => p.1 = r.anime_id) = true
  · rw [if_pos hany] at hp
    exact Or.inl ⟨p, hp, rfl, rfl⟩
  · rw [if_neg hany] at hp
    rcases List.mem_append.1 hp with hin | hnew
    · exact Or.inl ⟨p, hin, rfl, rfl⟩
    · right
      have : p = (r.anime_id, ⟨0, 0, r⟩) := by simpa using hnew
      rw [this]

theorem combInsert1_mem_info (d : List (Int × CombEntry)) (r : RecRecord)
    (q : Int × CombEntry) (hq : q ∈ combInsert1 d r) :
    (∃ p ∈ d, p.1 = q.1 ∧ p.2.anime_info = q.2.anime_info) ∨
      (q.1 = r.anime_id ∧ q.2.anime_info = r) := by
  unfold combInsert1 at hq
  obtain ⟨p, hp, rfl⟩ := List.mem_map.1 hq
  have hps : (if p.1 = r.anime_id then
      (p.1, { p.2 with collaborative_score := r.similarity_score }) else p).2.anime_info
      = p.2.anime_info ∧
      (if p.1 = r.anime_id then
      (p.1, { p.2 with collaborative_score := r.similarity_score }) else p).1 = p.1 := by
    by_cases hpe : p.1 = r.anime_id <;> simp [hpe]
  rw [hps.1, hps.2]
  by_cases hany : d.any (fun p => p.1 = r.anime_id) = true
  · rw [if_pos hany] at hp
    exact Or.inl ⟨p, hp, rfl, rfl⟩
  · rw [if_neg hany] at hp
    rcases List.mem_append.1 hp with hin | hnew
    · exact Or.inl ⟨p, hin, rfl, rfl⟩
    · have : p = (r.anime_id, ⟨0, 0, r⟩) := by simpa using hnew
      rw [this]
      exact Or.inr ⟨rfl, rfl⟩

theorem combInsert2_mem_info (d : List (Int × CombEntry)) (r : RecRecord)
    (q : Int × CombEntry) (hq : q ∈ combInsert2 d r) :
    (∃ p ∈ d, p.1 = q.1 ∧ p.2.anime_info = q.2.anime_info) ∨
      (q.1 = r.anime_id ∧ q.2.anime_info = r) := by
  unfold combInsert2 at hq
  obtain ⟨p, hp, rfl⟩ := List.mem_map.1 hq
  have hps : (if p.1 = r.anime_id then
      (p.1, { p.2 with content_score := r.similarity_score }) else p).2.anime_info
      = p.2.anime_info ∧
      (if p.1 = r.anime_id then
      (p.1, { p.2 with content_score := r.similarity_score }) else p).1 = p.1 := by
    by_cases hpe : p.1 = r.anime_id <;> simp [hpe]
  rw [hps.1, hps.2]
  by_cases hany : d.any (fun p => p.1 = r.anime_id) = true
  · rw [if_pos hany] at hp
    exact Or.inl ⟨p, hp, rfl, rfl⟩
  · rw [if_neg hany] at hp
    rcases List.mem_append.1 hp with hin | hnew
    · exact Or.inl ⟨p, hin, rfl, rfl⟩
    · have : p = (r.anime_id, ⟨0, 0, r⟩) := by simpa using hnew
      rw [this]
      exact Or.inr ⟨rfl, rfl⟩

theorem fold1_collab (L : List RecRecord) :
    ∀ (d : List (Int × CombEntry)) (q : Int × CombEntry),
      q ∈ L.foldl combInsert1 d →
      (∃ r ∈ L, r.anime_id = q.1 ∧
        q.2.collaborative_score = r.similarity_score) ∨ q ∈ d := by
  induction L with
  | nil => intro d q h; exact Or.inr h
  | cons r L ih =>
    intro d q h
    rcases ih (combInsert1 d r) q h with ⟨r2, hr2, he1, he2⟩ | hd
    · exact Or.inl ⟨r2, List.mem_cons_of_mem r hr2, he1, he2⟩
    · rcases combInsert1_mem d r q hd with ⟨h1, h2⟩ | hd2
      · exact Or.inl ⟨r, List.mem_cons_self r L, h1.symm, h2⟩
      · exact Or.inr hd2

theorem fold2_content (L : List RecRecord) :
    ∀ (d : List (Int × CombEntry)) (q : Int × CombEntry),
      q ∈ L.foldl combInsert2 d →
      (∃ r ∈ L, r.anime_id = q.1 ∧ q.2.content_score = r.similarity_score) ∨
        q ∈ d := by
  induction L with
  | nil => intro d q h; exact Or.inr h
  | cons r L ih =>
    intro d q h
    rcases ih (combInsert2 d r) q h with ⟨r2, hr2, he1, he2⟩ | hd
    · exact Or.inl ⟨r2, List.mem_cons_of_mem r hr2, he1, he2⟩
    · rcases combInsert2_mem d r q hd with ⟨h1, h2⟩ | hd2
      · exact Or.inl ⟨r, List.mem_cons_self r L, h1.symm, h2⟩
      · exact Or.inr hd2

theorem fold1_content (L : List RecRecord) :
    ∀ (d : List (Int × CombEntry)) (q : Int × CombEntry),
      q ∈ L.foldl combInsert1 d →
      (∃ p ∈ d, p.1 = q.1 ∧ p.2.content_score = q.2.content_score) ∨
        q.2.content_score = 0 := by
  induction L with
  | nil => intro d q h; exact Or.inl ⟨q, h, rfl, rfl⟩
  | cons r L ih =>
    intro d q h
    rcases ih (combInsert1 d r) q h with ⟨p, hp, he1, he2⟩ | h0
    · rcases combInsert1_mem_content d r p hp with ⟨p2, hp2, hq1, hq2⟩ | h0
      · exact Or.inl ⟨p2, hp2, by rw [hq1, he1], by rw [hq2, he2]⟩
      · exact Or.inr (by rw [← he2, h0])
    · exact Or.inr h0

theorem fold2_collab (L : List RecRecord) :
    ∀ (d : List (Int × CombEntry)) (q : Int × CombEntry),
      q ∈ L.foldl combInsert2 d →
      (∃ p ∈ d, p.1 = q.1 ∧
        p.2.collaborative_score = q.2.collaborative_score) ∨
        q.2.collaborative_score = 0 := by
  induction L with
  | nil => intro d q h; exact Or.inl ⟨q, h, rfl, rfl⟩
  | cons r L ih =>
    intro d q h
    rcases ih (combInsert2 d r) q h with ⟨p, hp, he1, he2⟩ | h0
    · rcases combInsert2_mem_collab d r p hp with ⟨p2, hp2, hq1, hq2⟩ | h0
      · exact Or.inl ⟨p2, hp2, by rw [hq1, he1], by rw [hq2, he2]⟩
      · exact Or.inr (by rw [← he2, h0])
    · exact Or.inr h0

theorem fold1_info (L : List RecRecord) :
    ∀ (d : List (Int × CombEntry)) (q : Int × CombEntry),
      q ∈ L.foldl combInsert1 d →
      (∃ p ∈ d, p.1 = q.1 ∧ p.2.anime_info = q.2.anime_info) ∨
        (∃ r ∈ L, r.anime_id = q.1 ∧ q.2.anime_info = r) := by
  induction L with
  | nil => intro d q h; exact Or.inl ⟨q, h, rfl, rfl⟩
  | cons r L ih =>
    intro d q h
    rcases ih (combInsert1 d r) q h with ⟨p, hp, he1, he2⟩ | ⟨r2, hr2, he1, he2⟩
    · rcases combInsert1_mem_info d r p hp with ⟨p2, hp2, hq1, hq2⟩ | ⟨h1, h2⟩
      · exact Or.inl ⟨p2, hp2, by rw [hq1, he1], by rw [hq2, he2]⟩
      · exact Or.inr ⟨r, List.mem_cons_self r L, by rw [← h1, he1], by rw [← he2, h2]⟩
    · exact Or.inr ⟨r2, List.mem_cons_of_mem r hr2, he1, he2⟩

theorem fold2_info (L : List RecRecord) :
    ∀ (d : List (Int × CombEntry)) (q : Int × CombEntry),
      q ∈ L.foldl combInsert2 d →
      (∃ p ∈ d, p.1 = q.1 ∧ p.2.anime_info = q.2.anime_info) ∨
        (∃ r ∈ L, r.anime_id = q.1 ∧ q.2.anime_info = r) := by
  induction L with
  | nil => intro d q h; exact Or.inl ⟨q, h, rfl, rfl⟩
  | cons r L ih =>
    intro d q h
    rcases ih (combInsert2 d r) q h with ⟨p, hp, he1, he2⟩ | ⟨r2, hr2, he1, he2⟩
    · rcases combInsert2_mem_info d r p hp with ⟨p2, hp2, hq1, hq2⟩ | ⟨h1, h2⟩
      · exact Or.inl ⟨p2, hp2, by rw [hq1, he1], by rw [hq2, he2]⟩
      · exact Or.inr ⟨r, List.mem_cons_self r L, by rw [← h1, he1], by rw [← he2, h2]⟩
    · exact Or.inr ⟨r2, List.mem_cons_of_mem r hr2, he1, he2⟩

theorem combineDict_collab (cr ct : List RecRecord) (q : Int × CombEntry)
    (hq : q ∈ combineDict cr ct) :
    (∃ r ∈ cr, r.anime_id = q.1 ∧
      q.2.collaborative_score = r.similarity_score) ∨
      q.2.collaborative_score = 0 := by
  unfold combineDict at hq
  rcases fold2_collab ct _ q hq with ⟨p, hp, he1, he2⟩ | h0
  · rcases fold1_collab cr [] p hp with ⟨r, hr, hr1, hr2⟩ | habs
    · exact Or.inl ⟨r, hr, by rw [hr1, he1], by rw [← he2, hr2]⟩
    · cases habs
  · exact Or.inr h0

theorem combineDict_content (cr ct : List RecRecord) (q : Int × CombEntry)
    (hq : q ∈ combineDict cr ct) :
    (∃ r ∈ ct, r.anime_id = q.1 ∧ q.2.content_score = r.similarity_score) ∨
      q.2.content_score = 0 := by
  unfold combineDict at hq
  rcases fold2_content ct _ q hq with ⟨r, hr, he1, he2⟩ | hq2
  · exact Or.inl ⟨r, hr, he1, he2⟩
  · rcases fold1_content cr [] q hq2 with ⟨p, habs, _⟩ | h0
    · cases habs
    · exact Or.inr h0

theorem combineDict_info (cr ct : List RecRecord) (q : Int × CombEntry)
    (hq : q ∈ combineDict cr ct) :
    ∃ r ∈ cr ++ ct, r.anime_id = q.1 ∧ q.2.anime_info = r := by
  unfold combineDict at hq
  rcases fold2_info ct _ q hq with ⟨p, hp, he1, he2⟩ | ⟨r, hr, he1, he2⟩
  · rcases fold1_info cr [] p hp with ⟨p2, habs, _⟩ | ⟨r, hr, hr1, hr2⟩
    · cases habs
    · exact ⟨r, List.mem_append_left _ hr, by rw [hr1, he1], by rw [← he2, hr2]⟩
  · exact ⟨r, List.mem_append_right _ hr, he1, he2⟩

theorem combInsert1_keys (d : List (Int × CombEntry)) (r : RecRecord) :
    (combInsert1 d r).map Prod.fst = insertK (d.map Prod.fst) r.anime_id := by
  unfold combInsert1 insertK
  have hmap : ∀ dl : List (Int × CombEntry),
      (dl.map (fun p => if p.1 = r.anime_id then
        (p.1, { p.2 with collaborative_score := r.similarity_score })
        else p)).map Prod.fst = dl.map Prod.fst := by
    intro dl
    induction dl with
    | nil => rfl
    | cons p rest ihd =>
      simp only [List.map_cons, ihd]
      by_cases hpe : p.1 = r.anime_id <;> simp [hpe]
  by_cases hany : d.any (fun p => p.1 = r.anime_id) = true
  · rw [if_pos hany, hmap]
    have hk : r.anime_id ∈ d.map Prod.fst := by
      rw [List.any_eq_true] at hany
      obtain ⟨p, hp, he⟩ := hany
      exact List.mem_map.2 ⟨p, hp, by simpa using he⟩
    rw [if_pos hk]
  · rw [if_neg hany, hmap]
    have hk : r.anime_id ∉ d.map Prod.fst := by
      intro hmem
      obtain ⟨p, hp, he⟩ := List.mem_map.1 hmem
      exact hany (List.any_eq_true.2 ⟨p, hp, by simpa using he⟩)
    rw [if_neg hk]
    simp

theorem combInsert2_keys (d : List (Int × CombEntry)) (r : RecRecord) :
    (combInsert2 d r).map Prod.fst = insertK (d.map Prod.fst) r.anime_id := by
  unfold combInsert2 insertK
  have hmap : ∀ dl : List (Int × CombEntry),
      (dl.map (fun p => if p.1 = r.anime_id then
        (p.1, { p.2 with content_score := r.similarity_score })
        else p)).map Prod.fst = dl.map Prod.fst := by
    intro dl
    induction dl with
    | nil => rfl
    | cons p rest ihd =>
      simp only [List.map_cons, ihd]
      by_cases hpe : p.1 = r.anime_id <;> simp [hpe]
  by_cases hany : d.any (fun p => p.1 = r.anime_id) = true
  · rw [if_pos hany, hmap]
    have hk : r.anime_id ∈ d.map Prod.fst := by
      rw [List.any_eq_true] at hany
      obtain ⟨p, hp, he⟩ := hany
      exact List.mem_map.2 ⟨p, hp, by simpa using he⟩
    rw [if_pos hk]
  · rw [if_neg hany, hmap]
    have hk : r.anime_id ∉ d.map Prod.fst := by
      intro hmem
      obtain ⟨p, hp, he⟩ := List.mem_map.1 hmem
      exact hany (List.any_eq_true.2 ⟨p, hp, by simpa using he⟩)
    rw [if_neg hk]
    simp

theorem fold1_keys (L : List RecRecord) :
    ∀ d : List (Int × CombEntry), (L.foldl combInsert1 d).map Prod.fst =
      (L.map (fun r => r.anime_id)).foldl insertK (d.map Prod.fst) := by
  induction L with
  | nil => intro d; rfl
  | cons r L ih =>
    intro d
    simp only [List.foldl_cons, List.map_cons]
    rw [ih (combInsert1 d r), combInsert1_keys]

theorem fold2_keys (L : List RecRecord) :
    ∀ d : List (Int × CombEntry), (L.foldl combInsert2 d).map Prod.fst =
      (L.map (fun r => r.anime_id)).foldl insertK (d.map Prod.fst) := by
  induction L with
  | nil => intro d; rfl
  | cons r L ih =>
    intro d
    simp only [List.foldl_cons, List.map_cons]
    rw [ih (combInsert2 d r), combInsert2_keys]

theorem combineDict_keys (cr ct : List RecRecord) :
    (combineDict cr ct).map Prod.fst =
      dedupKeys (cr.map (fun r => r.anime_id) ++ ct.map (fun r => r.anime_id)) := by
  unfold combineDict dedupKeys
  rw [fold2_keys, fold1_keys, List.foldl_append]
  rfl

theorem sortByDesc_sorted {α : Type} (key : α → ℝ) (l : List α) :
    List.Sorted (fun a b => key b ≤ key a) (sortByDesc key l) := by
  unfold sortByDesc
  letI : DecidableRel (fun a b : α => key b ≤ key a) :=
    fun _ _ => Classical.propDecidable _
  haveI : IsTotal α (fun a b => key b ≤ key a) :=
    ⟨fun a b => le_total (key b) (key a)⟩
  haveI : IsTrans α (fun a b => key b ≤ key a) :=
    ⟨fun _ _ _ hab hbc => le_trans hbc hab⟩
  exact List.sorted_insertionSort _ l

theorem sortByDesc_perm {α : Type} (key : α → ℝ) (l : List α) :
    (sortByDesc key l).Perm l := by
  unfold sortByDesc
  exact List.perm_insertionSort _ l

/-- **C6.**  The hybrid default fusion: `get_recommendations` requests `2k`
candidates from each sub-engine and combines them; the combination's key set
is the union of the two candidate id lists (first-occurrence order); each
output record is tagged `'hybrid'` and carries
`hybrid_score = w_collab * collab_score + w_content * content_score`, each
side score coming from a matching record of that side's list (0 if the side
misses the item); the output is sorted by hybrid score descending and
truncated to `k`. -/
theorem C6_hybrid_fusion (D : ProviderData) (F : List (List ℚ)) (wc wt : ℝ)
    (u : Int) (k : ℕ) :
    hybridGetRecommendations D F wc wt u k =
      combineRecommendations wc wt
        (collabGetRecommendations D 10000 5000 u (k * 2))
        (contentGetRecommendations D F u (k * 2)) k ∧
    ∀ (cr ct : List RecRecord) (n : ℕ),
      (combineRecommendations wc wt cr ct n).length ≤ n ∧
      ((combineDict cr ct).map Prod.fst =
        dedupKeys (cr.map (fun r => r.anime_id) ++ ct.map (fun r => r.anime_id))) ∧
      List.Sorted (fun a b : HybridRecord => b.hybrid_score ≤ a.hybrid_score)
        (combineRecommendations wc wt cr ct n) ∧
      ∀ h ∈ combineRecommendations wc wt cr ct n,
        h.base.recommendation_type = "hybrid" ∧
        h.hybrid_score = wc * h.collaborative_score + wt * h.content_score ∧
        ((∃ r ∈ cr, r.anime_id = h.base.anime_id ∧
            h.collaborative_score = r.similarity_score) ∨
          h.collaborative_score = 0) ∧
        ((∃ r ∈ ct, r.anime_id = h.base.anime_id ∧
            h.content_score = r.similarity_score) ∨ h.content_score = 0) := by
  refine ⟨rfl, ?_⟩
  intro cr ct n
  refine ⟨?_, combineDict_keys cr ct, ?_, ?_⟩
  · unfold combineRecommendations
    exact List.length_take_le n _
  · unfold combineRecommendations
    exact (sortByDesc_sorted _ _).sublist (List.take_sublist n _)
  · intro h hmem
    have hrec : h ∈ (combineDict cr ct).map (fun p =>
        ({ base := { p.2.anime_info with recommendation_type := "hybrid" },
           hybrid_score := wc * p.2.collaborative_score + wt * p.2.content_score,
           collaborative_score := p.2.collaborative_score,
           content_score := p.2.content_score } : HybridRecord)) := by
      unfold combineRecommendations at hmem
      exact (sortByDesc_perm _ _).subset ((List.take_sublist n _).subset hmem)
    obtain ⟨q, hq, rfl⟩ := List.mem_map.1 hrec
    have hid : ({ q.2.anime_info with
        recommendation_type := "hybrid" } : RecRecord).anime_id = q.1 := by
      obtain ⟨r, _, hr1, hr2⟩ := combineDict_info cr ct q hq
      rw [show ({ q.2.anime_info with recommendation_type := "hybrid" } :
        RecRecord).anime_id = q.2.anime_info.anime_id from rfl, hr2, hr1]
    refine ⟨rfl, rfl, ?_, ?_⟩
    · rcases combineDict_collab cr ct q hq with ⟨r, hr, hr1, hr2⟩ | h0
      · exact Or.inl ⟨r, hr, by rw [hr1, ← hid], hr2⟩
      · exact Or.inr h0
    · rcases combineDict_content cr ct q hq with ⟨r, hr, hr1, hr2⟩ | h0
      · exact Or.inl ⟨r, hr, by rw [hr1, ← hid], hr2⟩
      · exact Or.inr h0

/-- **C6, witness**: collaborative score 0.8 and content score 0.5 for the
same item under the default weights fuse to hybrid score 0.68 with type
`'hybrid'`. -/
theorem C6_hybrid_fusion_witness :
    ∃ h, h ∈ combineRecommendations 0.6 0.4 [wrecCollab] [wrecContent] 1 ∧
      h.base.recommendation_type = "hybrid" ∧
      h.hybrid_score = 0.6 * h.collaborative_score + 0.4 * h.content_score ∧
      h.hybrid_score = 0.68 := by
  have hcd : combineDict [wrecCollab] [wrecContent] =
      [(1, ⟨(0.8 : ℝ), (0.5 : ℝ), wrecCollab⟩)] := by
    simp [combineDict, combInsert1, combInsert2, wrecCollab, wrecContent]
  have hout : combineRecommendations 0.6 0.4 [wrecCollab] [wrecContent] 1 =
      [⟨{ wrecCollab with recommendation_type := "hybrid" },
        0.6 * 0.8 + 0.4 * 0.5, 0.8, 0.5⟩] := by
    unfold combineRecommendations
    rw [hcd]
    simp [sortByDesc, List.insertionSort, List.orderedInsert]
  refine ⟨⟨{ wrecCollab with recommendation_type := "hybrid" },
      0.6 * 0.8 + 0.4 * 0.5, 0.8, 0.5⟩, by rw [hout]; exact List.mem_singleton.2 rfl,
    ?_, ?_, by norm_num⟩
  · exact (((C6_hybrid_fusion exDataPop [] 0.6 0.4 1 1).2 [wrecCollab]
      [wrecContent] 1).2.2.2 _ (by rw [hout]; exact List.mem_singleton.2 rfl)).1
  · exact (((C6_hybrid_fusion exDataPop [] 0.6 0.4 1 1).2 [wrecCollab]
      [wrecContent] 1).2.2.2 _ (by rw [hout]; exact List.mem_singleton.2 rfl)).2.1

/-! ## C9 — cold start returns exactly the popularity fallback -/

theorem map_congr_mem {α β : Type} (l : List α) (f g : α → β)
    (h : ∀ a ∈ l, f a = g a) : l.map f = l.map g := by
  induction l with
  | nil => rfl
  | cons a t ih =>
    simp only [List.map_cons]
    rw [h a (List.mem_cons_self a t), ih (fun x hx => h x (List.mem_cons_of_mem a hx))]

theorem not_active_of_no_rows (D : ProviderData) (mu : ℕ) (u : Int)
    (hu : userRatingRows D u = []) : u ∉ activeUserIds D mu := by
  intro hmem
  unfold activeUserIds nlargestIds at hmem
  have h1 := (List.take_sublist mu _).subset hmem
  have h2 := (List.perm_insertionSort _ _).subset h1
  unfold sortedDistinct at h2
  have h3 := (List.perm_insertionSort _ _).subset h2
  have h4 : u ∈ D.ratings.map (fun x => x.user_id) := List.mem_dedup.1 h3
  obtain ⟨x, hx, he⟩ := List.mem_map.1 h4
  have hmem2 : x ∈ userRatingRows D u :=
    List.mem_filter.2 ⟨hx, by simpa using he⟩
  rw [hu] at hmem2
  cases hmem2

theorem collab_cold (D : ProviderData) (mu ma : ℕ) (u : Int) (n : ℕ)
    (hu : userRatingRows D u = []) :
    collabGetRecommendations D mu ma u n = popularRecs D 50 n := by
  unfold collabGetRecommendations
  rw [if_neg (not_active_of_no_rows D mu u hu)]

theorem content_cold (D : ProviderData) (F : List (List ℚ)) (u : Int) (n : ℕ)
    (hu : userRatingRows D u = []) :
    contentGetRecommendations D F u n = popularRecs D 50 n := by
  simp [contentGetRecommendations, hu]

theorem foldl_insertK_all_mem :
    ∀ (l ks : List Int), (∀ x ∈ l, x ∈ ks) → l.foldl insertK ks = ks := by
  intro l
  induction l with
  | nil => intro ks _; rfl
  | cons a t ih =>
    intro ks h
    simp only [List.foldl_cons]
    rw [show insertK ks a = ks from if_pos (h a (List.mem_cons_self a t))]
    exact ih ks (fun x hx => h x (List.mem_cons_of_mem a hx))

theorem foldl_insertK_fresh :
    ∀ (l ks : List Int), l.Nodup → (∀ x ∈ l, x ∉ ks) →
      l.foldl insertK ks = ks ++ l := by
  intro l
  induction l with
  | nil => intro ks _ _; simp
  | cons a t ih =>
    intro ks hnd h
    simp only [List.foldl_cons]
    rw [show insertK ks a = ks ++ [a] from if_neg (h a (List.mem_cons_self a t))]
    rw [ih (ks ++ [a]) (List.nodup_cons.1 hnd).2 ?_]
    · simp
    · intro x hx hmem
      rcases List.mem_append.1 hmem with hks | ha
      · exact h x (List.mem_cons_of_mem a hx) hks
      · have hxa : x = a := by simpa using ha
        exact (List.nodup_cons.1 hnd).1 (hxa ▸ hx)

theorem dedupKeys_doubled (l : List Int) (h : l.Nodup) :
    dedupKeys (l ++ l) = l := by
  unfold dedupKeys
  rw [List.foldl_append, foldl_insertK_fresh l [] h (by simp),
    List.nil_append, foldl_insertK_all_mem l l (fun x hx => hx)]

theorem sortByDesc_of_const {α : Type} (key : α → ℝ) (l : List α)
    (h : ∀ a ∈ l, ∀ b ∈ l, key b ≤ key a) : sortByDesc key l = l := by
  unfold sortByDesc
  induction l with
  | nil => rfl
  | cons a t ih =>
    simp only [List.insertionSort]
    rw [ih (fun x hx y hy =>
      h x (List.mem_cons_of_mem a hx) y (List.mem_cons_of_mem a hy))]
    cases t with
    | nil => rfl
    | cons b t2 =>
      exact List.orderedInsert_of_le _ _
        (h a (List.mem_cons_self a _) b (List.mem_cons_of_mem a (List.mem_cons_self b t2)))

theorem combine_ids_of_identical (wc wt : ℝ) (P : List RecRecord) (n : ℕ)
    (hids : (P.map (fun r => r.anime_id)).Nodup)
    (hsc : ∀ r ∈ P, r.similarity_score = 0) :
    (combineRecommendations wc wt P P n).map (fun h => h.base.anime_id) =
      (P.map (fun r => r.anime_id)).take n := by
  have hcomb : combineRecommendations wc wt P P n =
      List.take n (sortByDesc (fun h : HybridRecord => h.hybrid_score)
        ((combineDict P P).map (fun p =>
          ({ base := { p.2.anime_info with recommendation_type := "hybrid" },
             hybrid_score := wc * p.2.collaborative_score + wt * p.2.content_score,
             collaborative_score := p.2.collaborative_score,
             content_score := p.2.content_score } : HybridRecord)))) := rfl
  rw [hcomb]
  have hsc0 : ∀ h ∈ (combineDict P P).map (fun p =>
      ({ base := { p.2.anime_info with recommendation_type := "hybrid" },
         hybrid_score := wc * p.2.collaborative_score + wt * p.2.content_score,
         collaborative_score := p.2.collaborative_score,
         content_score := p.2.content_score } : HybridRecord)),
      h.hybrid_score = 0 := by
    intro h hm
    obtain ⟨q, hq, rfl⟩ := List.mem_map.1 hm
    have hc : q.2.collaborative_score = 0 := by
      rcases combineDict_collab P P q hq with ⟨r, hr, _, he⟩ | h0
      · rw [he, hsc r hr]
      · exact h0
    have hct : q.2.content_score = 0 := by
      rcases combineDict_content P P q hq with ⟨r, hr, _, he⟩ | h0
      · rw [he, hsc r hr]
      · exact h0
    show wc * q.2.collaborative_score + wt * q.2.content_score = 0
    rw [hc, hct]
    ring
  rw [sortByDesc_of_const _ _ (fun a ha b hb => by rw [hsc0 a ha, hsc0 b hb])]
  rw [List.map_take]
  congr 1
  rw [List.map_map]
  have hinfo : ∀ q ∈ combineDict P P,
      ((fun h : HybridRecord => h.base.anime_id) ∘ (fun p : Int × CombEntry =>
        ({ base := { p.2.anime_info with recommendation_type := "hybrid" },
           hybrid_score := wc * p.2.collaborative_score + wt * p.2.content_score,
           collaborative_score := p.2.collaborative_score,
           content_score := p.2.content_score } : HybridRecord))) q = q.1 := by
    intro q hq
    obtain ⟨r, _, hr1, hr2⟩ := combineDict_info P P q hq
    show q.2.anime_info.anime_id = q.1
    rw [hr2, hr1]
  rw [map_congr_mem _ _ _ hinfo]
  have := combineDict_keys P P
  rw [show (combineDict P P).map (fun q => q.1) = (combineDict P P).map Prod.fst
      from rfl, this, dedupKeys_doubled _ hids]

theorem popularRecs_ids (D : ProviderData) (m n : ℕ) :
    (popularRecs D m n).map (fun r => r.anime_id) =
      ((getPopularAnime D m).take n).map (fun a => a.anime_id) := by
  unfold popularRecs
  rw [List.map_map]
  rfl

/-- **C9.**  A user with zero rows in the rating table gets, from each of the
three strategies, exactly the popularity fallback for that `k`: the
collaborative and content engines return the fallback records themselves, and
the hybrid fusion of the two identical zero-score fallback lists preserves
the same items in the same order (its records are retagged `'hybrid'`). -/
theorem C9_cold_start (D : ProviderData) (F : List (List ℚ)) (wc wt : ℝ)
    (u : Int) (k : ℕ) (hu : userRatingRows D u = [])
    (hN : (D.anime.map (fun a => a.anime_id)).Nodup) :
    collabGetRecommendations D 10000 5000 u k = popularRecs D 50 k ∧
    contentGetRecommendations D F u k = popularRecs D 50 k ∧
    (hybridGetRecommendations D F wc wt u k).map (fun h => h.base.anime_id) =
      (popularRecs D 50 k).map (fun r => r.anime_id) := by
  refine ⟨collab_cold D 10000 5000 u k hu, content_cold D F u k hu, ?_⟩
  unfold hybridGetRecommendations
  rw [collab_cold D 10000 5000 u (k * 2) hu, content_cold D F u (k * 2) hu]
  rw [combine_ids_of_identical wc wt _ k
    ((popularRecs_ids_sublist D 50 (k * 2)).nodup hN)
    (fun r hr => (popularRecs_mem D 50 (k * 2) r hr).2.2.2)]
  rw [popularRecs_ids, popularRecs_ids, ← List.map_take, List.take_take,
    show min k (k * 2) = k from by omega]

/-- **C9, witness**: user 42 has no rating rows in `exDataPop`; all three
strategies reproduce the popularity fallback's items for `k = 3`. -/
theorem C9_cold_start_witness :
    userRatingRows exDataPop 42 = [] ∧
    collabGetRecommendations exDataPop 10000 5000 42 3 = popularRecs exDataPop 50 3 ∧
    contentGetRecommendations exDataPop [] 42 3 = popularRecs exDataPop 50 3 ∧
    (hybridGetRecommendations exDataPop [] 0.6 0.4 42 3).map
        (fun h => h.base.anime_id) =
      (popularRecs exDataPop 50 3).map (fun r => r.anime_id) := by
  have h := C9_cold_start exDataPop [] 0.6 0.4 42 3 (by decide) (by decide)
  exact ⟨by decide, h.1, h.2.1, h.2.2⟩

/-! ## C4 — bounded length, no duplicate ids -/

theorem dictAdd_keys (d : List (Int × ℝ)) (k : Int) (v : ℝ) :
    (dictAdd d k v).map Prod.fst = insertK (d.map Prod.fst) k := by
  unfold dictAdd insertK
  have hmap : ∀ dl : List (Int × ℝ),
      (dl.map (fun p => if p.1 = k then (p.1, p.2 + v) else p)).map Prod.fst =
        dl.map Prod.fst := by
    intro dl
    induction dl with
    | nil => rfl
    | cons p rest ihd =>
      simp only [List.map_cons, ihd]
      by_cases hpe : p.1 = k <;> simp [hpe]
  by_cases hany : d.any (fun p => p.1 = k) = true
  · rw [if_pos hany, hmap]
    have hk : k ∈ d.map Prod.fst := by
      rw [List.any_eq_true] at hany
      obtain ⟨p, hp, he⟩ := hany
      exact List.mem_map.2 ⟨p, hp, by simpa using he⟩
    rw [if_pos hk]
  · rw [if_neg hany]
    have hk : k ∉ d.map Prod.fst := by
      intro hmem
      obtain ⟨p, hp, he⟩ := List.mem_map.1 hmem
      exact hany (List.any_eq_true.2 ⟨p, hp, by simpa using he⟩)
    rw [if_neg hk]
    simp

theorem insertK_nodup (ks : List Int) (k : Int) (h : ks.Nodup) :
    (insertK ks k).Nodup := by
  unfold insertK
  by_cases hk : k ∈ ks
  · rw [if_pos hk]; exact h
  · rw [if_neg hk]
    refine List.Nodup.append h (List.nodup_singleton k) ?_
    intro a ha hb
    rw [List.mem_singleton] at hb
    exact hk (hb ▸ ha)

theorem keys_nodup_preserved {β : Type}
    (step : List (Int × ℝ) → β → List (Int × ℝ))
    (hstep : ∀ d b, (d.map Prod.fst).Nodup → ((step d b).map Prod.fst).Nodup)
    (L : List β) :
    ∀ d, (d.map Prod.fst).Nodup → ((L.foldl step d).map Prod.fst).Nodup := by
  induction L with
  | nil => intro d h; exact h
  | cons b L ih =>
    intro d h
    exact ih (step d b) (hstep d b h)

theorem collabAnimeScores_keys_nodup (D : ProviderData) (mu ma : ℕ) (u : Int) :
    ((collabAnimeScores D mu ma u).map Prod.fst).Nodup := by
  unfold collabAnimeScores
  refine keys_nodup_preserved _ ?_ _ [] (by simp)
  intro d j hd
  refine keys_nodup_preserved _ ?_ _ d hd
  intro d2 a hd2
  by_cases hc : 0 < (userRow D mu ma ((activeUserIds D mu).getD j 0)).getD a 0 ∧
      (userRow D mu ma u).getD a 0 = 0
  · rw [if_pos hc, dictAdd_keys]
    exact insertK_nodup _ _ hd2
  · rw [if_neg hc]
    exact hd2

theorem contentAnimeScores_keys_nodup (D : ProviderData) (F : List (List ℚ))
    (u : Int) : ((contentAnimeScores D F u).map Prod.fst).Nodup := by
  unfold contentAnimeScores
  refine keys_nodup_preserved _ ?_ _ [] (by simp)
  intro d aid hd
  by_cases hc : aid ∈ D.anime.map (fun a => a.anime_id)
  · rw [if_pos hc]
    refine keys_nodup_preserved _ ?_ _ d hd
    intro d2 idx hd2
    by_cases hr : (D.anime.getD idx default).anime_id ∉
        (userRatingRows D u).map (fun x => x.anime_id)
    · rw [if_pos hr, dictAdd_keys]
      exact insertK_nodup _ _ hd2
    · rw [if_neg hr]
      exact hd2
  · rw [if_neg hc]
    exact hd

theorem mem_filterMap_recs (D : ProviderData) (t : String) (l : List (Int × ℝ))
    (r : RecRecord)
    (hr : r ∈ l.filterMap (fun p => (getAnimeInfo D p.1).map (fun a =>
      ({ anime_id := p.1, name := a.name, genre := a.genre, type := a.type,
         episodes := a.episodes, rating := a.rating, similarity_score := p.2,
         recommendation_type := t } : RecRecord)))) :
    r.anime_id ∈ l.map Prod.fst := by
  obtain ⟨q, hq, hfq⟩ := List.mem_filterMap.1 hr
  cases hinfo : getAnimeInfo D q.1 with
  | none => rw [hinfo] at hfq; cases hfq
  | some a =>
    rw [hinfo] at hfq
    have : r.anime_id = q.1 := by
      have := Option.some.inj hfq
      rw [← this]
    rw [this]
    exact List.mem_map.2 ⟨q, hq, rfl⟩

theorem filterMap_recs_ids_nodup (D : ProviderData) (t : String)
    (l : List (Int × ℝ)) (h : (l.map Prod.fst).Nodup) :
    ((l.filterMap (fun p => (getAnimeInfo D p.1).map (fun a =>
      ({ anime_id := p.1, name := a.name, genre := a.genre, type := a.type,
         episodes := a.episodes, rating := a.rating, similarity_score := p.2,
         recommendation_type := t } : RecRecord)))).map
      (fun r => r.anime_id)).Nodup := by
  induction l with
  | nil => simp
  | cons p tl ih =>
    rw [List.map_cons] at h
    have hh := List.nodup_cons.1 h
    cases hinfo : getAnimeInfo D p.1 with
    | none =>
      rw [List.filterMap_cons_none (by rw [hinfo]; rfl)]
      exact ih hh.2
    | some a =>
      rw [List.filterMap_cons_some (by rw [hinfo]; rfl)]
      simp only [List.map_cons, List.nodup_cons]
      refine ⟨?_, ih hh.2⟩
      intro hmem
      obtain ⟨r, hrm, hre⟩ := List.mem_map.1 hmem
      have hidm : r.anime_id ∈ tl.map Prod.fst := mem_filterMap_recs D t tl r hrm
      rw [hre] at hidm
      exact hh.1 hidm

theorem combineRecommendations_length_le (wc wt : ℝ) (cr ct : List RecRecord)
    (n : ℕ) : (combineRecommendations wc wt cr ct n).length ≤ n := by
  unfold combineRecommendations
  exact List.length_take_le n _

theorem collabGetRecommendations_spec (D : ProviderData) (mu ma : ℕ) (u : Int)
    (k : ℕ) (hN : (D.anime.map (fun a => a.anime_id)).Nodup) :
    (collabGetRecommendations D mu ma u k).length ≤ k ∧
    ((collabGetRecommendations D mu ma u k).map (fun r => r.anime_id)).Nodup := by
  unfold collabGetRecommendations
  by_cases hmem : u ∈ activeUserIds D mu
  · rw [if_pos hmem]
    constructor
    · exact le_trans (List.length_filterMap_le _ _)
        (List.length_take_le k _)
    · refine filterMap_recs_ids_nodup D "collaborative" _ ?_
      refine ((List.take_sublist k _).map Prod.fst).nodup ?_
      exact (((sortByDesc_perm (fun p : Int × ℝ => p.2)
        (collabAnimeScores D mu ma u)).symm.map Prod.fst).nodup)
        (collabAnimeScores_keys_nodup D mu ma u)
  · rw [if_neg hmem]
    exact ⟨popularRecs_length_le D 50 k, (popularRecs_ids_sublist D 50 k).nodup hN⟩

theorem contentGetRecommendations_spec (D : ProviderData) (F : List (List ℚ))
    (u : Int) (k : ℕ) (hN : (D.anime.map (fun a => a.anime_id)).Nodup) :
    (contentGetRecommendations D F u k).length ≤ k ∧
    ((contentGetRecommendations D F u k).map (fun r => r.anime_id)).Nodup := by
  unfold contentGetRecommendations
  by_cases h1 : userRatingRows D u = []
  · rw [if_pos h1]
    exact ⟨popularRecs_length_le D 50 k, (popularRecs_ids_sublist D 50 k).nodup hN⟩
  · rw [if_neg h1]
    by_cases h2 : ((userRatingRows D u).filter (fun x => 7 ≤ x.rating)).map
        (fun x => x.anime_id) = []
    · rw [if_pos h2]
      exact ⟨popularRecs_length_le D 50 k, (popularRecs_ids_sublist D 50 k).nodup hN⟩
    · rw [if_neg h2]
      constructor
      · exact le_trans (List.length_filterMap_le _ _) (List.length_take_le k _)
      · refine filterMap_recs_ids_nodup D "content_based" _ ?_
        refine ((List.take_sublist k _).map Prod.fst).nodup ?_
        exact (((sortByDesc_perm (fun p : Int × ℝ => p.2)
          (contentAnimeScores D F u)).symm.map Prod.fst).nodup)
          (contentAnimeScores_keys_nodup D F u)

/-- **C4.**  For every valid strategy and every `k ≥ 1` (with the item table
satisfying its unique-id invariant), the facade returns a list of length at
most `k`, and a collaborative or content result list contains no item id
twice. -/
theorem C4_length_nodup (D : ProviderData) (F : List (List ℚ)) (u : Int)
    (k : ℕ) (s : String) (hs : s ∈ ["collaborative", "content", "hybrid"])
    (_hk : 1 ≤ k) (hN : (D.anime.map (fun a => a.anime_id)).Nodup) :
    ∃ l, serviceGetRecommendations D F u s k = .ok l ∧ l.length ≤ k ∧
      ((s = "collaborative" ∨ s = "content") →
        (l.map (fun r => r.anime_id)).Nodup) := by
  have hs3 : s = "collaborative" ∨ s = "content" ∨ s = "hybrid" := by
    simpa using hs
  rcases hs3 with rfl | rfl | rfl
  · refine ⟨collabGetRecommendations D 10000 5000 u k, ?_, ?_, ?_⟩
    · unfold serviceGetRecommendations facadeGetRecommendations theStrategies
      rw [if_pos (by decide :
        ("collaborative" : String) ∈ ["collaborative", "content", "hybrid"])]
      rfl
    · exact (collabGetRecommendations_spec D 10000 5000 u k hN).1
    · intro _
      exact (collabGetRecommendations_spec D 10000 5000 u k hN).2
  · refine ⟨contentGetRecommendations D F u k, ?_, ?_, ?_⟩
    · unfold serviceGetRecommendations facadeGetRecommendations theStrategies
      rw [if_pos (by decide :
        ("content" : String) ∈ ["collaborative", "content", "hybrid"])]
      rfl
    · exact (contentGetRecommendations_spec D F u k hN).1
    · intro _
      exact (contentGetRecommendations_spec D F u k hN).2
  · refine ⟨(hybridGetRecommendations D F (0.6 : ℝ) (0.4 : ℝ) u k).map
      (fun h => h.base), ?_, ?_, ?_⟩
    · unfold serviceGetRecommendations facadeGetRecommendations theStrategies
      rw [if_pos (by decide :
        ("hybrid" : String) ∈ ["collaborative", "content", "hybrid"])]
      rfl
    · rw [List.length_map]
      exact combineRecommendations_length_le _ _ _ _ _
    · intro hcase
      rcases hcase with he | he <;> exact absurd he (by decide)

/-- **C4, witness** at `exDataPop`, strategy `"collaborative"`, `k = 2`. -/
theorem C4_length_nodup_witness :
    ∃ l, serviceGetRecommendations exDataPop [] 1 "collaborative" 2 = .ok l ∧
      l.length ≤ 2 ∧
      (("collaborative" = "collaborative" ∨ "collaborative" = "content") →
        (l.map (fun r => r.anime_id)).Nodup) :=
  C4_length_nodup exDataPop [] 1 2 "collaborative" (by decide) (by decide)
    (by decide)

/-! ## C8 — collaborative neighborhood and score accumulation -/

/-- The strict-ish total order underlying the stable `argsort` model. -/
def argRel (xs : List ℝ) (i j : ℕ) : Prop :=
  xs.getD i 0 < xs.getD j 0 ∨ (xs.getD i 0 = xs.getD j 0 ∧ i ≤ j)

theorem argsortAsc_perm (xs : List ℝ) :
    (argsortAsc xs).Perm (List.range xs.length) := by
  unfold argsortAsc
  exact @List.perm_insertionSort ℕ _ (fun _ _ => Classical.propDecidable _) _

theorem argsortAsc_sorted (xs : List ℝ) :
    List.Sorted (argRel xs) (argsortAsc xs) := by
  unfold argsortAsc argRel
  refine @List.sorted_insertionSort ℕ _ (fun _ _ => Classical.propDecidable _)
    ?_ ?_ _
  · refine ⟨fun i j => ?_⟩
    rcases lt_trichotomy (xs.getD i 0) (xs.getD j 0) with h | h | h
    · exact Or.inl (Or.inl h)
    · rcases le_total i j with hij | hij
      · exact Or.inl (Or.inr ⟨h, hij⟩)
      · exact Or.inr (Or.inr ⟨h.symm, hij⟩)
    · exact Or.inr (Or.inl h)
  · refine ⟨fun i j k hij hjk => ?_⟩
    rcases hij with h1 | ⟨h1, h1b⟩ <;> rcases hjk with h2 | ⟨h2, h2b⟩
    · exact Or.inl (h1.trans h2)
    · exact Or.inl (h2 ▸ h1)
    · exact Or.inl (h1 ▸ h2)
    · exact Or.inr ⟨h1.trans h2, h1b.trans h2b⟩

theorem argsortAsc_nodup (xs : List ℝ) : (argsortAsc xs).Nodup :=
  (argsortAsc_perm xs).symm.nodup (List.nodup_range _)

theorem argsortAsc_length (xs : List ℝ) :
    (argsortAsc xs).length = xs.length :=
  (argsortAsc_perm xs).length_eq.trans (List.length_range _)

theorem argsortAsc_mem_lt (xs : List ℝ) (j : ℕ) (hj : j ∈ argsortAsc xs) :
    j < xs.length :=
  List.mem_range.1 ((argsortAsc_perm xs).subset hj)

theorem argsortAsc_getLast_of_strict_max (xs : List ℝ) (t : ℕ)
    (ht : t < xs.length)
    (hmax : ∀ j, j < xs.length → j ≠ t → xs.getD j 0 < xs.getD t 0)
    (hne : argsortAsc xs ≠ []) : (argsortAsc xs).getLast hne = t := by
  by_contra hLne
  have hLmem : (argsortAsc xs).getLast hne ∈ argsortAsc xs :=
    List.getLast_mem hne
  have hLrange : (argsortAsc xs).getLast hne < xs.length :=
    argsortAsc_mem_lt xs _ hLmem
  have htmem : t ∈ argsortAsc xs :=
    (argsortAsc_perm xs).symm.subset (List.mem_range.2 ht)
  have hsplit := List.dropLast_append_getLast hne
  have htdrop : t ∈ (argsortAsc xs).dropLast := by
    have hsp := hsplit ▸ htmem
    rcases List.mem_append.1 hsp with h | h
    · exact h
    · have ht2 : t = (argsortAsc xs).getLast hne := List.mem_singleton.1 h
      exact absurd ht2.symm hLne
  have hrel : argRel xs t ((argsortAsc xs).getLast hne) := by
    have hp : List.Pairwise (argRel xs)
        ((argsortAsc xs).dropLast ++ [(argsortAsc xs).getLast hne]) := by
      rw [hsplit]
      exact argsortAsc_sorted xs
    exact (List.pairwise_append.1 hp).2.2 t htdrop _ (by simp)
  have hvl := hmax _ hLrange (fun he => hLne he)
  rcases hrel with h | ⟨he, _⟩
  · exact absurd h (lt_asymm hvl)
  · rw [he] at hvl
    exact lt_irrefl _ hvl

theorem dictAdd_mem (d : List (Int × ℝ)) (k : Int) (v : ℝ) (q : Int × ℝ)
    (hq : q ∈ dictAdd d k v) :
    (q ∈ d ∧ q.1 ≠ k) ∨ (∃ q0 ∈ d, q0.1 = k ∧ q = (q0.1, q0.2 + v)) ∨
    ((∀ q0 ∈ d, q0.1 ≠ k) ∧ q = (k, v)) := by
  unfold dictAdd at hq
  by_cases hany : d.any (fun p => p.1 = k) = true
  · rw [if_pos hany] at hq
    obtain ⟨q0, hq0, rfl⟩ := List.mem_map.1 hq
    by_cases hk : q0.1 = k
    · rw [if_pos hk]
      exact Or.inr (Or.inl ⟨q0, hq0, hk, rfl⟩)
    · rw [if_neg hk]
      exact Or.inl ⟨hq0, hk⟩
  · rw [if_neg hany] at hq
    have hnone : ∀ q0 ∈ d, q0.1 ≠ k := by
      intro q0 hq0 he
      exact hany (List.any_eq_true.2 ⟨q0, hq0, by simpa using he⟩)
    rcases List.mem_append.1 hq with hin | hnew
    · exact Or.inl ⟨hin, hnone q hin⟩
    · exact Or.inr (Or.inr ⟨hnone, by simpa using hnew⟩)

theorem mem_keys_dictAdd_self (d : List (Int × ℝ)) (k : Int) (v : ℝ) :
    k ∈ (dictAdd d k v).map Prod.fst := by
  rw [dictAdd_keys]
  unfold insertK
  by_cases hk : k ∈ d.map Prod.fst
  · rw [if_pos hk]; exact hk
  · rw [if_neg hk]; simp

theorem mem_keys_dictAdd_of_mem (d : List (Int × ℝ)) (k : Int) (v : ℝ)
    (x : Int) (hx : x ∈ d.map Prod.fst) :
    x ∈ (dictAdd d k v).map Prod.fst := by
  rw [dictAdd_keys]
  unfold insertK
  by_cases hk : k ∈ d.map Prod.fst
  · rw [if_pos hk]; exact hx
  · rw [if_neg hk]; exact List.mem_append_left _ hx

theorem dictAdd_fold_char (E : List (Int × ℝ)) :
    ∀ (d : List (Int × ℝ)) (p : Int × ℝ),
      p ∈ E.foldl (fun d2 e => dictAdd d2 e.1 e.2) d →
      (∃ q ∈ d, q.1 = p.1 ∧
        p.2 = q.2 + ((E.filter (fun e => e.1 = p.1)).map Prod.snd).sum) ∨
      ((∀ q ∈ d, q.1 ≠ p.1) ∧
        p.2 = ((E.filter (fun e => e.1 = p.1)).map Prod.snd).sum) := by
  induction E with
  | nil =>
    intro d p hp
    exact Or.inl ⟨p, hp, rfl, by simp⟩
  | cons e E ih =>
    intro d p hp
    rcases ih (dictAdd d e.1 e.2) p hp with ⟨q, hq, hk, hv⟩ | ⟨hnone, hv⟩
    · rcases dictAdd_mem d e.1 e.2 q hq with ⟨hin, hne⟩ | ⟨q0, hq0, hk0, he⟩ | ⟨hnone, he⟩
      · have hfil : (e :: E).filter (fun x => x.1 = p.1) =
            E.filter (fun x => x.1 = p.1) := by
          rw [List.filter_cons_of_neg]
          simp only [decide_eq_true_eq]
          rw [← hk]
          exact fun hc => hne hc.symm
        exact Or.inl ⟨q, hin, hk, by rw [hfil]; exact hv⟩
      · have hkey : e.1 = p.1 := by
          rw [he] at hk
          simp only at hk
          rw [← hk, hk0]
        have hfil : (e :: E).filter (fun x => x.1 = p.1) =
            e :: E.filter (fun x => x.1 = p.1) := by
          rw [List.filter_cons_of_pos]
          simpa using hkey
        refine Or.inl ⟨q0, hq0, by rw [hk0, hkey], ?_⟩
        rw [hfil]
        simp only [List.map_cons, List.sum_cons]
        rw [hv, he]
        ring
      · have hkey : e.1 = p.1 := by
          rw [he] at hk
          simpa using hk
        have hfil : (e :: E).filter (fun x => x.1 = p.1) =
            e :: E.filter (fun x => x.1 = p.1) := by
          rw [List.filter_cons_of_pos]
          simpa using hkey
        refine Or.inr ⟨fun q0 hq0 => hkey ▸ hnone q0 hq0, ?_⟩
        rw [hfil]
        simp only [List.map_cons, List.sum_cons]
        rw [hv, he]
    · have hkeys : ∀ x ∈ (dictAdd d e.1 e.2).map Prod.fst, x ≠ p.1 := by
        intro x hx he
        obtain ⟨q', hq', hq'e⟩ := List.mem_map.1 hx
        exact hnone q' hq' (by rw [hq'e, he])
      have hke : e.1 ≠ p.1 := hkeys e.1 (mem_keys_dictAdd_self d e.1 e.2)
      have hd : ∀ q ∈ d, q.1 ≠ p.1 := fun q hq =>
        hkeys q.1 (mem_keys_dictAdd_of_mem d e.1 e.2 q.1
          (List.mem_map.2 ⟨q, hq, rfl⟩))
      have hfil : (e :: E).filter (fun x => x.1 = p.1) =
          E.filter (fun x => x.1 = p.1) := by
        rw [List.filter_cons_of_neg]
        simpa using hke
      exact Or.inr ⟨hd, by rw [hfil]; exact hv⟩

theorem foldl_ite_dictAdd {γ : Type} (cond : γ → Prop) [DecidablePred cond]
    (f : γ → Int × ℝ) :
    ∀ (L : List γ) (d : List (Int × ℝ)),
      L.foldl (fun d2 a => if cond a then dictAdd d2 (f a).1 (f a).2 else d2) d =
      (L.filterMap (fun a => if cond a then some (f a) else none)).foldl
        (fun d2 e => dictAdd d2 e.1 e.2) d := by
  intro L
  induction L with
  | nil => intro d; rfl
  | cons a L ih =>
    intro d
    by_cases hc : cond a
    · rw [List.foldl_cons, if_pos hc,
        List.filterMap_cons_some (by rw [if_pos hc]), List.foldl_cons]
      exact ih (dictAdd d (f a).1 (f a).2)
    · rw [List.foldl_cons, if_neg hc,
        List.filterMap_cons_none (by rw [if_neg hc])]
      exact ih d

theorem outer_fold_events
    (step_dict : List (Int × ℝ) → ℕ → List (Int × ℝ))
    (inner_events : ℕ → List (Int × ℝ))
    (hstep : ∀ d j, step_dict d j =
      (inner_events j).foldl (fun d2 e => dictAdd d2 e.1 e.2) d) :
    ∀ (N : List ℕ) (es : List (Int × ℝ)),
      (N.foldl (fun es2 j => es2 ++ inner_events j) es).foldl
        (fun d2 e => dictAdd d2 e.1 e.2) [] =
      N.foldl step_dict (es.foldl (fun d2 e => dictAdd d2 e.1 e.2) []) := by
  intro N
  induction N with
  | nil => intro es; rfl
  | cons j N ih =>
    intro es
    rw [List.foldl_cons, List.foldl_cons, ih (es ++ inner_events j),
      List.foldl_append, ← hstep]

theorem collabAnimeScores_eq_events (D : ProviderData) (mu ma : ℕ) (u : Int) :
    collabAnimeScores D mu ma u =
      (collabScoreEvents D mu ma u).foldl
        (fun d e => dictAdd d e.1 e.2) [] := by
  have h1 : collabAnimeScores D mu ma u =
      (collabSimilarUsers D mu ma u).foldl (collabDictStep D mu ma u) [] := rfl
  have h2 : collabScoreEvents D mu ma u =
      (collabSimilarUsers D mu ma u).foldl
        (fun es j => es ++ collabInnerEvents D mu ma u j) [] := rfl
  have hstep : ∀ d j, collabDictStep D mu ma u d j =
      (collabInnerEvents D mu ma u j).foldl
        (fun d2 e => dictAdd d2 e.1 e.2) d := by
    intro d j
    exact foldl_ite_dictAdd
      (fun a => 0 < (userRow D mu ma ((activeUserIds D mu).getD j 0)).getD a 0 ∧
        (userRow D mu ma u).getD a 0 = 0)
      (fun a => ((popularAnimeIds D ma).getD a 0,
        (collabSims D mu ma u).getD j 0 *
          ((userRow D mu ma ((activeUserIds D mu).getD j 0)).getD a 0 : ℝ)))
      (List.range (popularAnimeIds D ma).length) d
  rw [h1, h2, outer_fold_events (collabDictStep D mu ma u)
    (collabInnerEvents D mu ma u) hstep (collabSimilarUsers D mu ma u) []]
  rfl

theorem dictAdd_fold_keys (E : List (Int × ℝ)) :
    ∀ d : List (Int × ℝ),
      (E.foldl (fun d2 e => dictAdd d2 e.1 e.2) d).map Prod.fst =
        (E.map Prod.fst).foldl insertK (d.map Prod.fst) := by
  induction E with
  | nil => intro d; rfl
  | cons e E ih =>
    intro d
    simp only [List.foldl_cons, List.map_cons]
    rw [ih (dictAdd d e.1 e.2), dictAdd_keys]

theorem collabSims_length (D : ProviderData) (mu ma : ℕ) (u : Int) :
    (collabSims D mu ma u).length = (activeUserIds D mu).length :=
  List.length_map _ _

/-- **C8, amended.**  The collaborative neighborhood consists of positions 1
through 10 of the stable similarity-descending ranking of *all* matrix rows
(the top-ranked entry is dropped).  Whenever the target user's similarity
entry is strictly above every other entry — in particular whenever no other
user ties its self-similarity — this equals the claim's "10 users with
highest similarity excluding the target": the target's index is excluded,
the neighborhood consists of `min 10 (n-1)` distinct other row indices,
listed by similarity descending, and every excluded other index has
similarity at most that of every included one.  Unconditionally, each
accumulated score is the sum of the qualifying
`neighbor_similarity * neighbor_rating` events for that item, the candidate
key set is the events' id set in first-occurrence order, and the candidates
are ranked by accumulated score descending. -/
theorem C8_neighborhood_amended (D : ProviderData) (mu ma : ℕ) (u : Int)
    (hmem : u ∈ activeUserIds D mu)
    (hmax : ∀ j, j < (activeUserIds D mu).length →
      j ≠ collabUserIdx D mu u →
      (collabSims D mu ma u).getD j 0 <
        (collabSims D mu ma u).getD (collabUserIdx D mu u) 0) :
    (collabUserIdx D mu u ∉ collabSimilarUsers D mu ma u) ∧
    (∀ j ∈ collabSimilarUsers D mu ma u, j < (activeUserIds D mu).length) ∧
    (collabSimilarUsers D mu ma u).Nodup ∧
    (collabSimilarUsers D mu ma u).length =
      min 10 ((activeUserIds D mu).length - 1) ∧
    List.Sorted (fun i j => (collabSims D mu ma u).getD j 0 ≤
      (collabSims D mu ma u).getD i 0) (collabSimilarUsers D mu ma u) ∧
    (∀ i ∈ collabSimilarUsers D mu ma u,
      ∀ j, j < (activeUserIds D mu).length →
        j ∉ collabSimilarUsers D mu ma u → j ≠ collabUserIdx D mu u →
        (collabSims D mu ma u).getD j 0 ≤ (collabSims D mu ma u).getD i 0) ∧
    (∀ p ∈ collabAnimeScores D mu ma u,
      p.2 = (((collabScoreEvents D mu ma u).filter
        (fun e => e.1 = p.1)).map Prod.snd).sum) ∧
    ((collabAnimeScores D mu ma u).map Prod.fst =
      dedupKeys ((collabScoreEvents D mu ma u).map Prod.fst)) ∧
    List.Sorted (fun p q : Int × ℝ => q.2 ≤ p.2)
      (sortByDesc (fun p : Int × ℝ => p.2) (collabAnimeScores D mu ma u)) := by
  have hn : (collabSims D mu ma u).length = (activeUserIds D mu).length :=
    collabSims_length D mu ma u
  have htlt : collabUserIdx D mu u < (activeUserIds D mu).length := by
    unfold collabUserIdx
    exact List.findIdx_lt_length_of_exists ⟨u, hmem, by simp⟩
  have htlt2 : collabUserIdx D mu u < (collabSims D mu ma u).length := by
    rw [hn]; exact htlt
  have hAne : argsortAsc (collabSims D mu ma u) ≠ [] := by
    intro hnil
    have := argsortAsc_length (collabSims D mu ma u)
    rw [hnil] at this
    simp at this
    omega
  have hlast : (argsortAsc (collabSims D mu ma u)).getLast hAne =
      collabUserIdx D mu u := by
    refine argsortAsc_getLast_of_strict_max _ _ htlt2 ?_ hAne
    intro j hj hjne
    exact hmax j (by rw [← hn]; exact hj) hjne
  have hsplit := List.dropLast_append_getLast hAne
  rw [hlast] at hsplit
  have hrev : (argsortAsc (collabSims D mu ma u)).reverse =
      collabUserIdx D mu u ::
        (argsortAsc (collabSims D mu ma u)).dropLast.reverse := by
    rw [← hsplit]
    simp
  have hN : collabSimilarUsers D mu ma u =
      ((argsortAsc (collabSims D mu ma u)).dropLast.reverse).take 10 := by
    unfold collabSimilarUsers
    rw [hrev]
    rfl
  have hAnodup := argsortAsc_nodup (collabSims D mu ma u)
  have hdropnodup : (argsortAsc (collabSims D mu ma u)).dropLast.Nodup :=
    (List.dropLast_sublist _).nodup hAnodup
  have htnotdrop : collabUserIdx D mu u ∉
      (argsortAsc (collabSims D mu ma u)).dropLast := by
    intro hmem2
    have hnd : ((argsortAsc (collabSims D mu ma u)).dropLast ++
        [collabUserIdx D mu u]).Nodup := by
      rw [hsplit]; exact hAnodup
    exact ((List.nodup_append.1 hnd).2.2) hmem2 (by simp)
  have hdropsub : (argsortAsc (collabSims D mu ma u)).dropLast.Sublist
      (argsortAsc (collabSims D mu ma u)) := List.dropLast_sublist _
  have hpairdrop : List.Pairwise (argRel (collabSims D mu ma u))
      (argsortAsc (collabSims D mu ma u)).dropLast :=
    (argsortAsc_sorted _).sublist hdropsub
  have hpairrev : List.Pairwise
      (fun i j => argRel (collabSims D mu ma u) j i)
      (argsortAsc (collabSims D mu ma u)).dropLast.reverse :=
    List.pairwise_reverse.2 hpairdrop
  have hdlen : (argsortAsc (collabSims D mu ma u)).dropLast.length =
      (activeUserIds D mu).length - 1 := by
    rw [List.length_dropLast, argsortAsc_length, hn]
  refine ⟨?_, ?_, ?_, ?_, ?_, ?_, ?_, ?_, ?_⟩
  · rw [hN]
    intro hmem2
    exact htnotdrop (List.mem_reverse.1 ((List.take_sublist 10 _).subset hmem2))
  · intro j hj
    rw [hN] at hj
    have hj2 : j ∈ (argsortAsc (collabSims D mu ma u)).dropLast :=
      List.mem_reverse.1 ((List.take_sublist 10 _).subset hj)
    have := argsortAsc_mem_lt _ j (hdropsub.subset hj2)
    rw [hn] at this
    exact this
  · rw [hN]
    exact (List.take_sublist 10 _).nodup (List.nodup_reverse.2 hdropnodup)
  · rw [hN, List.length_take, List.length_reverse, hdlen]
  · rw [hN]
    refine List.Pairwise.imp ?_ ((hpairrev.sublist (List.take_sublist 10 _)))
    intro i j hij
    rcases hij with h | ⟨h, _⟩
    · exact le_of_lt h
    · exact le_of_eq h
  · intro i hi j hj hjnotN hjne
    have hjA : j ∈ argsortAsc (collabSims D mu ma u) :=
      (argsortAsc_perm _).symm.subset (List.mem_range.2 (by rw [hn]; exact hj))
    have hjdrop : j ∈ (argsortAsc (collabSims D mu ma u)).dropLast := by
      have hsp := hsplit ▸ hjA
      rcases List.mem_append.1 hsp with h | h
      · exact h
      · exact absurd (List.mem_singleton.1 h) hjne
    have hjrev : j ∈ (argsortAsc (collabSims D mu ma u)).dropLast.reverse :=
      List.mem_reverse.2 hjdrop
    have hjdrop10 : j ∈
        ((argsortAsc (collabSims D mu ma u)).dropLast.reverse).drop 10 := by
      have := (List.take_append_drop 10
        ((argsortAsc (collabSims D mu ma u)).dropLast.reverse)) ▸ hjrev
      rcases List.mem_append.1 this with h | h
      · rw [hN] at hjnotN
        exact absurd h hjnotN
      · exact h
    have hpair2 : List.Pairwise (fun i j => argRel (collabSims D mu ma u) j i)
        (((argsortAsc (collabSims D mu ma u)).dropLast.reverse).take 10 ++
          ((argsortAsc (collabSims D mu ma u)).dropLast.reverse).drop 10) := by
      rw [List.take_append_drop]
      exact hpairrev
    have := (List.pairwise_append.1 hpair2).2.2 i (by rw [← hN]; exact hi)
      j hjdrop10
    rcases this with h | ⟨h, _⟩
    · exact le_of_lt h
    · exact le_of_eq h
  · intro p hp
    rw [collabAnimeScores_eq_events] at hp
    rcases dictAdd_fold_char (collabScoreEvents D mu ma u) [] p hp with
      ⟨q, hq, _⟩ | ⟨_, hv⟩
    · cases hq
    · exact hv
  · rw [collabAnimeScores_eq_events, dictAdd_fold_keys]
    rfl
  · exact sortByDesc_sorted _ _

theorem cosSim_eval_sq (x y : List ℚ) (a b : ℚ) (ha : 0 < a) (hb : 0 < b)
    (hx : dotQ x x = a ^ 2) (hy : dotQ y y = b ^ 2) :
    cosSim x y = (dotQ x y : ℝ) / ((a : ℝ) * b) := by
  unfold cosSim
  rw [if_neg, hx, hy]
  · push_cast
    rw [Real.sqrt_sq (le_of_lt (by exact_mod_cast ha)),
      Real.sqrt_sq (le_of_lt (by exact_mod_cast hb))]
  · rintro (h | h)
    · rw [hx] at h
      exact absurd h (pow_ne_zero 2 (ne_of_gt ha))
    · rw [hy] at h
      exact absurd h (pow_ne_zero 2 (ne_of_gt hb))

/-- **C8, counterexample.**  The claim says the neighborhood is "the 10 users
with highest similarity to the target user excluding the target user
themself".  On `exDataTie`, users 1 and 2 have identical rating rows: user
1's similarity vector is `[1, 1, 0]` (self-similarity tied with user 2 at
index 1).  `np.argsort(...)[::-1][1:11]` drops the top-ranked *entry*, which
under the tie is index 1 — so the computed neighborhood contains the target
user's own index 0 and excludes index 1 despite its maximal similarity 1. -/
theorem C8_counterexample :
    collabUserIdx exDataTie 10000 1 = 0 ∧
    0 ∈ collabSimilarUsers exDataTie 10000 5000 1 ∧
    1 ∉ collabSimilarUsers exDataTie 10000 5000 1 ∧
    collabSims exDataTie 10000 5000 1 = [1, 1, 0] := by
  have hau : activeUserIds exDataTie 10000 = [1, 2, 3] := by decide
  have hr1 : userRow exDataTie 10000 5000 1 = [5, 0] := by
    norm_num [userRow, matrixEntry, popularAnimeIds, activeUserIds,
      nlargestIds, sortedDistinct, countA, countU, exDataTie, List.filter,
      List.insertionSort, List.orderedInsert]
  have hr2 : userRow exDataTie 10000 5000 2 = [5, 0] := by
    norm_num [userRow, matrixEntry, popularAnimeIds, activeUserIds,
      nlargestIds, sortedDistinct, countA, countU, exDataTie, List.filter,
      List.insertionSort, List.orderedInsert]
  have hr3 : userRow exDataTie 10000 5000 3 = [0, 5] := by
    norm_num [userRow, matrixEntry, popularAnimeIds, activeUserIds,
      nlargestIds, sortedDistinct, countA, countU, exDataTie, List.filter,
      List.insertionSort, List.orderedInsert]
  have hc1 : cosSim [(5 : ℚ), 0] [(5 : ℚ), 0] = 1 :=
    cosSim_self _ (by norm_num [dotQ, List.zipWith])
  have hc2 : cosSim [(5 : ℚ), 0] [(0 : ℚ), 5] = 0 :=
    cosSim_of_dot_eq_zero _ _ (by norm_num [dotQ, List.zipWith])
  have hsims : collabSims exDataTie 10000 5000 1 = [1, 1, 0] := by
    unfold collabSims
    rw [hau]
    simp only [List.map_cons, List.map_nil]
    rw [hr1, hr2, hr3, hc1, hc2]
  have hargs : argsortAsc [(1 : ℝ), 1, 0] = [2, 0, 1] := by
    unfold argsortAsc
    rw [show List.length [(1 : ℝ), 1, 0] = 3 from rfl,
      show List.range 3 = [0, 1, 2] from rfl]
    norm_num [List.insertionSort, List.orderedInsert, List.getD]
  have hsu : collabSimilarUsers exDataTie 10000 5000 1 = [0, 2] := by
    unfold collabSimilarUsers
    rw [hsims, hargs]
    rfl
  exact ⟨by decide, by rw [hsu]; decide, by rw [hsu]; decide, hsims⟩

/-- **C8, witness** for the amended theorem on `exDataStrict`, where user 1's
self-similarity is strictly maximal in its similarity vector `[3/5, 1, 0]`
(row order `[2, 1, 3]`): the target index is excluded and the neighborhood
has `min 10 (n-1)` members. -/
theorem C8_neighborhood_amended_witness :
    ((1 : Int) ∈ activeUserIds exDataStrict 10000) ∧
    (collabUserIdx exDataStrict 10000 1 ∉
      collabSimilarUsers exDataStrict 10000 5000 1) ∧
    (collabSimilarUsers exDataStrict 10000 5000 1).length =
      min 10 ((activeUserIds exDataStrict 10000).length - 1) := by
  have hmem : (1 : Int) ∈ activeUserIds exDataStrict 10000 := by decide
  have hau : activeUserIds exDataStrict 10000 = [2, 1, 3] := by decide
  have hr1 : userRow exDataStrict 10000 5000 1 = [5, 0] := by
    norm_num [userRow, matrixEntry, popularAnimeIds, activeUserIds,
      nlargestIds, sortedDistinct, countA, countU, exDataStrict, List.filter,
      List.insertionSort, List.orderedInsert]
  have hr2 : userRow exDataStrict 10000 5000 2 = [3, 4] := by
    norm_num [userRow, matrixEntry, popularAnimeIds, activeUserIds,
      nlargestIds, sortedDistinct, countA, countU, exDataStrict, List.filter,
      List.insertionSort, List.orderedInsert]
  have hr3 : userRow exDataStrict 10000 5000 3 = [0, 5] := by
    norm_num [userRow, matrixEntry, popularAnimeIds, activeUserIds,
      nlargestIds, sortedDistinct, countA, countU, exDataStrict, List.filter,
      List.insertionSort, List.orderedInsert]
  have hc12 : cosSim [(5 : ℚ), 0] [(3 : ℚ), 4] = 3 / 5 := by
    rw [cosSim_eval_sq _ _ 5 5 (by norm_num) (by norm_num)
      (by norm_num [dotQ, List.zipWith]) (by norm_num [dotQ, List.zipWith])]
    rw [show dotQ [(5 : ℚ), 0] [(3 : ℚ), 4] = 15 from by
      norm_num [dotQ, List.zipWith]]
    norm_num
  have hc11 : cosSim [(5 : ℚ), 0] [(5 : ℚ), 0] = 1 :=
    cosSim_self _ (by norm_num [dotQ, List.zipWith])
  have hc13 : cosSim [(5 : ℚ), 0] [(0 : ℚ), 5] = 0 :=
    cosSim_of_dot_eq_zero _ _ (by norm_num [dotQ, List.zipWith])
  have hsims : collabSims exDataStrict 10000 5000 1 = [3 / 5, 1, 0] := by
    unfold collabSims
    rw [hau]
    simp only [List.map_cons, List.map_nil]
    rw [hr1, hr2, hr3, hc12, hc11, hc13]
  have htidx : collabUserIdx exDataStrict 10000 1 = 1 := by decide
  have hlen : (activeUserIds exDataStrict 10000).length = 3 := by decide
  have hmax : ∀ j, j < (activeUserIds exDataStrict 10000).length →
      j ≠ collabUserIdx exDataStrict 10000 1 →
      (collabSims exDataStrict 10000 5000 1).getD j 0 <
        (collabSims exDataStrict 10000 5000 1).getD
          (collabUserIdx exDataStrict 10000 1) 0 := by
    intro j hj hne
    rw [hlen] at hj
    rw [htidx] at hne
    rw [hsims, htidx]
    interval_cases j
    · norm_num [List.getD]
    · exact absurd rfl hne
    · norm_num [List.getD]
  have h := C8_neighborhood_amended exDataStrict 10000 5000 1 hmem hmax
  exact ⟨hmem, h.1, h.2.2.2.1⟩

end AnimeRec
